import Mathlib

/-!
Verification of the PDF content-extraction core of this repository
(`aiscript.py`, class `GeminiPDFProcessor`): the text splitter
`smart_text_split`, the response parser `parse_json_response` /
`clean_json_string`, the chunk orchestrator `process_multi_chunk_document`
and the result merger `merge_chunk_results`.

Modelling conventions:
* Python `str` values that the splitter and parser scan character by
  character are modelled as `List Char` (Python string length and
  indexing are in code points, exactly matching `List Char`).
* Python dicts are modelled as insertion-ordered association lists
  (`PyDict`); updating an existing key keeps its position, setting a new
  key appends it, exactly like CPython dicts.
* JSON-like dynamic values are modelled by the inductive type `JVal`.
* `time.strftime` results are modelled as an explicit timestamp
  parameter, and the external `model.generate_content` call of the chunk
  orchestrator as an explicit oracle returning `Except` (an exception or
  the response text).
-/

/-! ## Python string primitives -/

/-- Whitespace for Python `str.strip` / regex `\s` (ASCII fragment;
the source only ever manipulates ASCII delimiters). -/
def isPyWs (c : Char) : Bool :=
  c = ' ' ∨ c = '\t' ∨ c = '\n' ∨ c = '\r' ∨ c = '\x0b' ∨ c = '\x0c'

/-- Python `str.strip()`: remove leading and trailing whitespace. -/
def pyStrip (l : List Char) : List Char :=
  ((l.dropWhile isPyWs).reverse.dropWhile isPyWs).reverse

/-- Helper for `pySplit`: prepend a character to the first segment. -/
def consHead (c : Char) : List (List Char) → List (List Char)
  | [] => [[c]]
  | s :: ss => (c :: s) :: ss

/-- Python `str.split(sep)` for a two-character separator `[a, b]` (the
source only splits on `"\n\n"` and `". "`): non-overlapping matches,
left to right, empty segments kept. -/
def pySplit (a b : Char) : List Char → List (List Char)
  | [] => [[]]
  | [c] => [[c]]
  | c :: d :: rest =>
    if c = a ∧ d = b then [] :: pySplit a b rest
    else consHead c (pySplit a b (d :: rest))

/-- Join a list of character lists with a separator (the inverse of
`pySplit`, used to state round-trip facts). -/
def interList (sep : List Char) : List (List Char) → List Char
  | [] => []
  | [x] => x
  | x :: xs => x ++ sep ++ interList sep xs

/-- Drop every whitespace character: the "up to whitespace" view of a
text used to state the splitter's content-preservation property. -/
def deWs (l : List Char) : List Char := l.filter (fun c => ¬ isPyWs c)

/-! ## The text splitter (`GeminiPDFProcessor.smart_text_split`) -/

/-- The `"\n\n"` paragraph separator. -/
def nlnl : List Char := ['\n', '\n']

/-- The `". "` sentence separator. -/
def dotSp : List Char := ['.', ' ']

/-- One iteration of the inner `for sentence in sentences` loop of
`smart_text_split` (aiscript.py lines 255-265), on the state
`(chunks, current_chunk)`. -/
def sentenceStep (max_chars : Nat) (st : List (List Char) × List Char) (sentence : List Char) :
    List (List Char) × List Char :=
  let (chunks, current_chunk) := st
  if current_chunk.length + sentence.length + 2 > max_chars then
    if current_chunk ≠ [] then
      (chunks ++ [pyStrip current_chunk], sentence)
    else
      (chunks ++ [sentence.take max_chars], [])
  else
    (chunks, current_chunk ++ sentence ++ dotSp)

/-- One iteration of the outer `for para in paragraphs` loop of
`smart_text_split` (aiscript.py lines 246-267). -/
def paraStep (max_chars : Nat) (st : List (List Char) × List Char) (para : List Char) :
    List (List Char) × List Char :=
  let (chunks, current_chunk) := st
  if current_chunk.length + para.length + 2 > max_chars then
    if current_chunk ≠ [] then
      (chunks ++ [pyStrip current_chunk], para)
    else
      (pySplit '.' ' ' para).foldl (sentenceStep max_chars) (chunks, [])
  else
    (chunks, current_chunk ++ para ++ nlnl)

/-- `GeminiPDFProcessor.smart_text_split` (aiscript.py lines 235-272). -/
def smart_text_split (text : List Char) (max_chars : Nat) : List (List Char) :=
  if text.length ≤ max_chars then [text]
  else
    let paragraphs := pySplit '\n' '\n' text
    let st := paragraphs.foldl (paraStep max_chars) ([], [])
    if pyStrip st.2 ≠ [] then st.1 ++ [pyStrip st.2] else st.1

/-! ## Lemmas about the primitives -/

theorem deWs_append (a b : List Char) : deWs (a ++ b) = deWs a ++ deWs b :=
  List.filter_append ..

theorem deWs_dropWhileWs (l : List Char) : deWs (l.dropWhile isPyWs) = deWs l := by
  induction l with
  | nil => rfl
  | cons c cs ih =>
    by_cases h : isPyWs c
    · have hd : (c :: cs).dropWhile isPyWs = cs.dropWhile isPyWs := by
        simp [List.dropWhile, h]
      rw [hd, ih]
      simp [deWs, List.filter_cons, h]
    · simp [List.dropWhile, h]

theorem deWs_reverse (l : List Char) : deWs l.reverse = (deWs l).reverse :=
  List.filter_reverse ..

theorem deWs_pyStrip (l : List Char) : deWs (pyStrip l) = deWs l := by
  unfold pyStrip
  rw [deWs_reverse, deWs_dropWhileWs, deWs_reverse, List.reverse_reverse,
    deWs_dropWhileWs]

theorem pyStrip_length_le (l : List Char) : (pyStrip l).length ≤ l.length := by
  unfold pyStrip
  calc ((l.dropWhile isPyWs).reverse.dropWhile isPyWs).reverse.length
      = ((l.dropWhile isPyWs).reverse.dropWhile isPyWs).length := List.length_reverse ..
    _ ≤ (l.dropWhile isPyWs).reverse.length := (List.dropWhile_sublist _).length_le
    _ = (l.dropWhile isPyWs).length := List.length_reverse ..
    _ ≤ l.length := (List.dropWhile_sublist _).length_le

theorem consHead_ne_nil (c : Char) (ss : List (List Char)) : consHead c ss ≠ [] := by
  match ss with
  | [] => simp [consHead]
  | s :: ss => simp [consHead]

theorem pySplit_ne_nil (a b : Char) (l : List Char) : pySplit a b l ≠ [] := by
  match l with
  | [] => simp [pySplit]
  | [c] => simp [pySplit]
  | c :: d :: rest =>
    rw [pySplit]
    split
    · simp
    · exact consHead_ne_nil _ _

theorem interList_cons_of_ne (sep x : List Char) (xs : List (List Char)) (h : xs ≠ []) :
    interList sep (x :: xs) = x ++ sep ++ interList sep xs := by
  match xs with
  | [] => exact absurd rfl h
  | y :: ys => rfl

theorem interList_consHead (sep : List Char) (c : Char) (ss : List (List Char))
    (h : ss ≠ []) : interList sep (consHead c ss) = c :: interList sep ss := by
  match ss with
  | [] => exact absurd rfl h
  | [s] => rfl
  | s :: t :: ss => rfl

/-- Round trip: joining the split segments with the separator restores
the original text. -/
theorem interList_pySplit (a b : Char) : ∀ l : List Char, interList [a, b] (pySplit a b l) = l
  | [] => rfl
  | [c] => rfl
  | c :: d :: rest => by
    rw [pySplit]
    split
    · rename_i h
      rw [interList_cons_of_ne _ _ _ (pySplit_ne_nil a b rest), interList_pySplit a b rest]
      simp [h.1, h.2]
    · rw [interList_consHead _ _ _ (pySplit_ne_nil a b (d :: rest)),
        interList_pySplit a b (d :: rest)]

/-! ## Characterizing the splitter's behavior -/

theorem dotSp_eq : dotSp = '.' :: [' '] := rfl

theorem nlnl_eq : nlnl = '\n' :: ['\n'] := rfl

/-- The text rebuilt from the sentence segments `ss.dropLast`, each with
its `". "` separator restored: exactly the accumulator contents of the
sentence loop just before its final flush. -/
def sentPrefix (ss : List (List Char)) : List Char :=
  (ss.map (fun s => s ++ dotSp)).flatten

theorem sentPrefix_cons (s : List Char) (ss : List (List Char)) :
    sentPrefix (s :: ss) = s ++ dotSp ++ sentPrefix ss := by
  simp [sentPrefix]

theorem interList_append_singleton (sep : List Char) :
    ∀ (ss : List (List Char)) (x : List Char),
      interList sep (ss ++ [x]) = (ss.map (fun s => s ++ sep)).flatten ++ x
  | [], x => by simp [interList]
  | s :: ss, x => by
    rw [List.cons_append, interList_cons_of_ne _ _ _ (by simp),
      interList_append_singleton sep ss x]
    simp

theorem deWs_interList (sep : List Char) (hsep : deWs sep = []) :
    ∀ ss : List (List Char), deWs (interList sep ss) = (ss.map deWs).flatten
  | [] => rfl
  | [x] => by simp [interList]
  | x :: y :: ss => by
    rw [interList_cons_of_ne _ _ _ (by simp), deWs_append, deWs_append,
      deWs_interList sep hsep (y :: ss), hsep]
    simp


theorem dotSp_length : dotSp.length = 2 := rfl

theorem nlnl_deWs : deWs nlnl = [] := rfl

/-- The sentence loop, entered with a non-empty accumulator whose
content plus the remaining sentences rebuilds to at most `max_chars`
characters (but exceeds `max_chars - 2`): every sentence but the last
fits, the accumulator is flushed exactly once at the last sentence,
which becomes the new accumulator. -/
theorem sentFoldLast (max_chars : Nat) :
    ∀ (ss : List (List Char)) (chunks : List (List Char)) (cur : List Char),
      ss ≠ [] → cur ≠ [] →
      cur.length + (interList dotSp ss).length ≤ max_chars →
      max_chars < cur.length + (interList dotSp ss).length + 2 →
      ss.foldl (sentenceStep max_chars) (chunks, cur) =
        (chunks ++ [pyStrip (cur ++ sentPrefix ss.dropLast)], (ss.getLast?).getD [])
  | [], _, _, hne, _, _, _ => absurd rfl hne
  | [s], chunks, cur, _, hcur, _, h2 => by
    have hilen : (interList dotSp [s]).length = s.length := by simp [interList]
    have hgt : cur.length + s.length + 2 > max_chars := by omega
    simp only [List.foldl_cons, List.foldl_nil, sentenceStep]
    rw [if_pos hgt, if_pos hcur]
    simp [sentPrefix]
  | s :: t :: ss', chunks, cur, _, hcur, h1, h2 => by
    have hdec : interList dotSp (s :: t :: ss') = s ++ dotSp ++ interList dotSp (t :: ss') :=
      interList_cons_of_ne _ _ _ (by simp)
    have hlen : (interList dotSp (s :: t :: ss')).length
        = s.length + 2 + (interList dotSp (t :: ss')).length := by
      rw [hdec]
      simp only [List.length_append, dotSp_length]
      try omega
    have hfit : ¬ (cur.length + s.length + 2 > max_chars) := by omega
    have hstep : sentenceStep max_chars (chunks, cur) s = (chunks, cur ++ s ++ dotSp) := by
      simp only [sentenceStep]
      rw [if_neg hfit]
    have hlen2 : (cur ++ s ++ dotSp).length = cur.length + s.length + 2 := by
      simp only [List.length_append, dotSp_length]
    have hne2 : cur ++ s ++ dotSp ≠ [] := by simp [dotSp]
    rw [List.foldl_cons, hstep,
      sentFoldLast max_chars (t :: ss') chunks (cur ++ s ++ dotSp) (by simp) hne2
        (by rw [hlen2]; omega) (by rw [hlen2]; omega)]
    rw [List.getLast?_cons_cons]
    have hpre : (s :: t :: ss').dropLast = s :: (t :: ss').dropLast := rfl
    rw [hpre, sentPrefix_cons]
    simp

/-- Entering the paragraph fallback (`current_chunk` empty, the
paragraph at most `max_chars` characters but with no room for the
`+ 2` separator margin): the sentence loop emits exactly one new chunk
and leaves an accumulator, both within bounds, together carrying
exactly the paragraph's non-whitespace content. -/
theorem sentFallback (max_chars : Nat) (para : List Char) (chunks : List (List Char))
    (hle : para.length ≤ max_chars) (hgt : max_chars < para.length + 2) :
    ∃ c cur',
      (pySplit '.' ' ' para).foldl (sentenceStep max_chars) (chunks, []) =
        (chunks ++ [c], cur') ∧
      c.length ≤ max_chars ∧ cur'.length ≤ max_chars ∧
      deWs c ++ deWs cur' = deWs para := by
  have hI : interList dotSp (pySplit '.' ' ' para) = para := interList_pySplit '.' ' ' para
  match hss : pySplit '.' ' ' para with
  | [] => exact absurd hss (pySplit_ne_nil '.' ' ' para)
  | [s] =>
    rw [hss] at hI
    have hs : s = para := by simpa [interList] using hI
    subst hs
    refine ⟨s.take max_chars, [], ?_, ?_, by simp, ?_⟩
    · simp only [List.foldl_cons, List.foldl_nil, sentenceStep]
      rw [if_pos (show ([] : List Char).length + s.length + 2 > max_chars by
            simp only [List.length_nil]; omega),
        if_neg (by simp)]
    · rw [List.take_of_length_le hle]; exact hle
    · rw [List.take_of_length_le hle]; simp [deWs]
  | s :: t :: ss' =>
    rw [hss] at hI
    have hdec : interList dotSp (s :: t :: ss') = s ++ dotSp ++ interList dotSp (t :: ss') :=
      interList_cons_of_ne _ _ _ (by simp)
    have hplen : para.length = s.length + 2 + (interList dotSp (t :: ss')).length := by
      rw [← hI, hdec]
      simp only [List.length_append, dotSp_length]
      try omega
    have hstep : sentenceStep max_chars (chunks, ([] : List Char)) s = (chunks, s ++ dotSp) := by
      simp only [sentenceStep]
      rw [if_neg (by simp only [List.length_nil]; omega)]
      rfl
    have hlen2 : (s ++ dotSp).length = s.length + 2 := by
      simp only [List.length_append, dotSp_length]
    have hrest := sentFoldLast max_chars (t :: ss') chunks (s ++ dotSp) (by simp)
      (by simp [dotSp]) (by rw [hlen2]; omega) (by rw [hlen2]; omega)
    have hne : (t :: ss') ≠ ([] : List (List Char)) := by simp
    have hsplitL : (t :: ss').dropLast ++ [(t :: ss').getLast hne] = t :: ss' :=
      List.dropLast_append_getLast hne
    have hlast : ((t :: ss').getLast?).getD [] = (t :: ss').getLast hne := by
      rw [List.getLast?_eq_getLast _ hne]
      rfl
    have hA : (s ++ dotSp ++ sentPrefix (t :: ss').dropLast) ++ ((t :: ss').getLast?).getD []
        = para := by
      rw [← hI, hdec, hlast]
      conv_rhs => rw [← hsplitL]
      rw [interList_append_singleton]
      simp [sentPrefix]
    refine ⟨pyStrip (s ++ dotSp ++ sentPrefix (t :: ss').dropLast),
      ((t :: ss').getLast?).getD [], ?_, ?_, ?_, ?_⟩
    · rw [List.foldl_cons, hstep, hrest]
    · calc (pyStrip (s ++ dotSp ++ sentPrefix (t :: ss').dropLast)).length
          ≤ (s ++ dotSp ++ sentPrefix (t :: ss').dropLast).length := pyStrip_length_le _
        _ ≤ para.length := by rw [← hA]; simp only [List.length_append]; omega
        _ ≤ max_chars := hle
    · calc (((t :: ss').getLast?).getD []).length ≤ para.length := by
            rw [← hA]; simp only [List.length_append]; omega
        _ ≤ max_chars := hle
    · rw [deWs_pyStrip, ← deWs_append, hA]

/-- Invariant of the paragraph loop: when every remaining paragraph is
at most `max_chars` characters, every chunk stays within the bound, so
does the accumulator, and the emitted chunks plus the accumulator carry
exactly the non-whitespace content of the paragraphs processed so far. -/
theorem paraFold (max_chars : Nat) :
    ∀ (ps : List (List Char)) (chunks : List (List Char)) (cur : List Char),
      (∀ p ∈ ps, p.length ≤ max_chars) →
      (∀ c ∈ chunks, c.length ≤ max_chars) →
      cur.length ≤ max_chars →
      (∀ c ∈ (ps.foldl (paraStep max_chars) (chunks, cur)).1, c.length ≤ max_chars) ∧
      (ps.foldl (paraStep max_chars) (chunks, cur)).2.length ≤ max_chars ∧
      deWs ((ps.foldl (paraStep max_chars) (chunks, cur)).1.flatten
          ++ (ps.foldl (paraStep max_chars) (chunks, cur)).2)
        = deWs (chunks.flatten ++ cur) ++ (ps.map deWs).flatten
  | [], chunks, cur, _, hchunks, hcur => ⟨hchunks, hcur, by simp⟩
  | p :: ps', chunks, cur, hps, hchunks, hcur => by
    have hp : p.length ≤ max_chars := hps p (by simp)
    have hps' : ∀ q ∈ ps', q.length ≤ max_chars := fun q hq => hps q (by simp [hq])
    rw [List.foldl_cons]
    by_cases hov : cur.length + p.length + 2 > max_chars
    · by_cases hne : cur = []
      · subst hne
        obtain ⟨c, cur', hfold, hclen, hcurlen, hdws⟩ :=
          sentFallback max_chars p chunks hp (by simp only [List.length_nil] at hov; omega)
        have hstep : paraStep max_chars (chunks, []) p = (chunks ++ [c], cur') := by
          simp only [paraStep]
          rw [if_pos hov, if_neg (by simp)]
          exact hfold
        rw [hstep]
        have hch : ∀ x ∈ chunks ++ [c], x.length ≤ max_chars := by
          intro x hx
          rcases List.mem_append.mp hx with h | h
          · exact hchunks x h
          · simp only [List.mem_singleton] at h; subst h; exact hclen
        have ih := paraFold max_chars ps' (chunks ++ [c]) cur' hps' hch hcurlen
        refine ⟨ih.1, ih.2.1, ?_⟩
        rw [ih.2.2]
        simp only [List.flatten_append, List.flatten_cons, List.flatten_nil,
          List.append_nil, List.map_cons, deWs_append, List.append_assoc, hdws]
      · have hstep : paraStep max_chars (chunks, cur) p = (chunks ++ [pyStrip cur], p) := by
          simp only [paraStep]
          rw [if_pos hov, if_pos hne]
        rw [hstep]
        have hch : ∀ x ∈ chunks ++ [pyStrip cur], x.length ≤ max_chars := by
          intro x hx
          rcases List.mem_append.mp hx with h | h
          · exact hchunks x h
          · simp only [List.mem_singleton] at h; subst h
            exact le_trans (pyStrip_length_le cur) hcur
        have ih := paraFold max_chars ps' (chunks ++ [pyStrip cur]) p hps' hch hp
        refine ⟨ih.1, ih.2.1, ?_⟩
        rw [ih.2.2]
        simp [deWs_append, deWs_pyStrip, List.append_assoc]
    · have hstep : paraStep max_chars (chunks, cur) p = (chunks, cur ++ p ++ nlnl) := by
        simp only [paraStep]
        rw [if_neg hov]
      rw [hstep]
      have hcl : (cur ++ p ++ nlnl).length ≤ max_chars := by
        have h2 : nlnl.length = 2 := rfl
        simp only [List.length_append, h2]
        omega
      have ih := paraFold max_chars ps' chunks (cur ++ p ++ nlnl) hps' hchunks hcl
      refine ⟨ih.1, ih.2.1, ?_⟩
      rw [ih.2.2]
      simp [deWs_append, nlnl_deWs, List.append_assoc]

theorem deWs_nil : deWs [] = [] := rfl

/-- `smart_text_split` on text over the limit: paragraph fold plus
final flush (the else-branch of the source's fast path). -/
theorem smart_text_split_of_long (text : List Char) (max_chars : Nat)
    (h : ¬ text.length ≤ max_chars) :
    smart_text_split text max_chars =
      (if pyStrip ((pySplit '\n' '\n' text).foldl (paraStep max_chars) ([], [])).2 ≠ []
       then ((pySplit '\n' '\n' text).foldl (paraStep max_chars) ([], [])).1
         ++ [pyStrip ((pySplit '\n' '\n' text).foldl (paraStep max_chars) ([], [])).2]
       else ((pySplit '\n' '\n' text).foldl (paraStep max_chars) ([], [])).1) := by
  unfold smart_text_split
  rw [if_neg h]

/-- Claim C4: on text longer than `max_chars` whose blank-line-delimited
paragraphs are each individually at most `max_chars` characters, every
chunk emitted by `smart_text_split` has length at most `max_chars`, and
the chunks rejoined in order reproduce the original text up to
whitespace (equal non-whitespace character sequences). -/
theorem c4_split_bounded_and_faithful (text : List Char) (max_chars : Nat)
    (hlong : max_chars < text.length)
    (hparas : ∀ p ∈ pySplit '\n' '\n' text, p.length ≤ max_chars) :
    (∀ c ∈ smart_text_split text max_chars, c.length ≤ max_chars) ∧
    deWs (smart_text_split text max_chars).flatten = deWs text := by
  obtain ⟨hb, hc, hd⟩ :=
    paraFold max_chars (pySplit '\n' '\n' text) [] [] hparas (by simp) (by simp)
  have htext : deWs text = ((pySplit '\n' '\n' text).map deWs).flatten := by
    conv_lhs => rw [← interList_pySplit '\n' '\n' text]
    exact deWs_interList ['\n', '\n'] rfl _
  have hd' : deWs (((pySplit '\n' '\n' text).foldl (paraStep max_chars) ([], [])).1.flatten
      ++ ((pySplit '\n' '\n' text).foldl (paraStep max_chars) ([], [])).2) = deWs text := by
    rw [hd, htext]
    simp [deWs_nil]
  rw [smart_text_split_of_long text max_chars (by omega)]
  by_cases hflush :
      pyStrip ((pySplit '\n' '\n' text).foldl (paraStep max_chars) ([], [])).2 ≠ []
  · rw [if_pos hflush]
    constructor
    · intro c hcmem
      rcases List.mem_append.mp hcmem with h | h
      · exact hb c h
      · simp only [List.mem_singleton] at h
        subst h
        exact le_trans (pyStrip_length_le _) hc
    · rw [← hd']
      simp [deWs_append, deWs_pyStrip]
  · rw [if_neg hflush]
    have hnil : pyStrip ((pySplit '\n' '\n' text).foldl (paraStep max_chars) ([], [])).2
        = [] := by
      by_contra hne
      exact hflush hne
    have h0 : deWs ((pySplit '\n' '\n' text).foldl (paraStep max_chars) ([], [])).2 = [] := by
      rw [← deWs_pyStrip, hnil, deWs_nil]
    refine ⟨hb, ?_⟩
    rw [← hd', deWs_append, h0]
    simp

/-- Claim C9: text already within the limit is returned unchanged as a
single chunk (the fast path of `smart_text_split`). -/
theorem c9_short_text_single_chunk (text : List Char) (max_chars : Nat)
    (h : text.length ≤ max_chars) :
    smart_text_split text max_chars = [text] := by
  unfold smart_text_split
  rw [if_pos h]

/-- Witness for C9 at a concrete input. -/
theorem c9_short_text_single_chunk_witness :
    ("hello".data).length ≤ 100 ∧ smart_text_split ("hello".data) 100 = ["hello".data] :=
  ⟨by decide, c9_short_text_single_chunk ("hello".data) 100 (by decide)⟩

/-- Claim C5 counterexample: with `max_chars = 5`, the input
`"aa\n\nabc. defg"` has the over-long second paragraph `"abc. defg"`
(9 characters, splittable at `". "` into two sentences), yet the code
emits it verbatim as one over-sized chunk: an over-long paragraph is
sentence-split only when it is reached with an empty accumulator, which
the preceding paragraph `"aa"` prevents here. -/
theorem c5_counterexample :
    smart_text_split ("aa\n\nabc. defg".data) 5 = ["aa".data, "abc. defg".data] ∧
    5 < ("abc. defg".data).length ∧
    2 ≤ (pySplit '.' ' ' ("abc. defg".data)).length := by
  refine ⟨?_, ?_, ?_⟩ <;> decide

/-- The sentence-level accumulate-and-flush computation (exactly the
inner loop of `smart_text_split` followed by the final flush), used to
state when the sentence fallback actually runs. -/
def sentenceSplitResult (text : List Char) (max_chars : Nat) : List (List Char) :=
  let st := (pySplit '.' ' ' text).foldl (sentenceStep max_chars) ([], [])
  if pyStrip st.2 ≠ [] then st.1 ++ [pyStrip st.2] else st.1

/-- Claim C5 (amended): an over-long paragraph is split at `". "`
sentence boundaries only when it is reached with an empty accumulator
(in particular when the whole text is one over-long paragraph); an
over-long paragraph reached with a non-empty accumulator just flushes
the accumulator and is kept whole, to be emitted later as one
over-sized chunk. -/
theorem c5_amended_sentence_fallback_scope :
    (∀ (text : List Char) (max_chars : Nat),
        pySplit '\n' '\n' text = [text] → max_chars < text.length →
        smart_text_split text max_chars = sentenceSplitResult text max_chars) ∧
    (∀ (max_chars : Nat) (chunks : List (List Char)) (cur para : List Char),
        cur ≠ [] → max_chars < para.length →
        paraStep max_chars (chunks, cur) para = (chunks ++ [pyStrip cur], para)) := by
  constructor
  · intro text max_chars hsingle hlong
    rw [smart_text_split_of_long text max_chars (by omega), hsingle]
    have hstep : paraStep max_chars (([] : List (List Char)), ([] : List Char)) text
        = (pySplit '.' ' ' text).foldl (sentenceStep max_chars) ([], []) := by
      simp only [paraStep]
      rw [if_pos (by simp only [List.length_nil]; omega), if_neg (by simp)]
    simp only [List.foldl_cons, List.foldl_nil, hstep]
    rfl
  · intro max_chars chunks cur para hne hlong
    simp only [paraStep]
    rw [if_pos (by omega), if_pos hne]

/-- Witness for the amended C5 at concrete inputs: the single over-long
paragraph `"abc. defg"` is sentence-split, while the same paragraph
after an accumulated `"aa"` is kept whole. -/
theorem c5_amended_sentence_fallback_scope_witness :
    smart_text_split ("abc. defg".data) 5 = ["abc.".data, "defg".data] ∧
    paraStep 5 ([], "aa".data) ("abc. defg".data) = (["aa".data], "abc. defg".data) := by
  constructor
  · rw [c5_amended_sentence_fallback_scope.1 ("abc. defg".data) 5 (by decide) (by decide)]
    decide
  · rw [c5_amended_sentence_fallback_scope.2 5 [] ("aa".data) ("abc. defg".data)
      (by decide) (by decide)]
    decide

/-- Witness for C4 at a concrete input: `"abc\n\nde"` with limit 5. -/
theorem c4_split_bounded_and_faithful_witness :
    (∀ c ∈ smart_text_split ("abc\n\nde".data) 5, c.length ≤ 5) ∧
    deWs (smart_text_split ("abc\n\nde".data) 5).flatten = deWs ("abc\n\nde".data) :=
  c4_split_bounded_and_faithful ("abc\n\nde".data) 5 (by decide) (by decide)

/-! ## Dynamic values and dictionaries

Python's dynamically typed JSON-shaped values are modelled by `JVal`;
Python dicts by insertion-ordered association lists. -/

inductive JVal : Type where
  | str (s : String)
  | num (n : Int)
  | bool (b : Bool)
  | null
  | arr (xs : List JVal)
  | obj (fields : List (String × JVal))
  deriving Repr

mutual

def JVal.beq : JVal → JVal → Bool
  | .str a, .str b => a == b
  | .num a, .num b => a == b
  | .bool a, .bool b => a == b
  | .null, .null => true
  | .arr xs, .arr ys => JVal.beqL xs ys
  | .obj xs, .obj ys => JVal.beqF xs ys
  | _, _ => false

def JVal.beqL : List JVal → List JVal → Bool
  | [], [] => true
  | x :: xs, y :: ys => JVal.beq x y && JVal.beqL xs ys
  | _, _ => false

def JVal.beqF : List (String × JVal) → List (String × JVal) → Bool
  | [], [] => true
  | (k, v) :: xs, (k', v') :: ys => k == k' && JVal.beq v v' && JVal.beqF xs ys
  | _, _ => false

end

mutual

theorem JVal.beq_iff : ∀ a b : JVal, JVal.beq a b = true ↔ a = b
  | .str a, .str b => by simp [JVal.beq]
  | .num a, .num b => by simp [JVal.beq]
  | .bool a, .bool b => by simp [JVal.beq]
  | .null, .null => by simp [JVal.beq]
  | .arr xs, .arr ys => by simpa [JVal.beq] using JVal.beqL_iff xs ys
  | .obj xs, .obj ys => by simpa [JVal.beq] using JVal.beqF_iff xs ys
  | .str _, .num _ => by simp [JVal.beq]
  | .str _, .bool _ => by simp [JVal.beq]
  | .str _, .null => by simp [JVal.beq]
  | .str _, .arr _ => by simp [JVal.beq]
  | .str _, .obj _ => by simp [JVal.beq]
  | .num _, .str _ => by simp [JVal.beq]
  | .num _, .bool _ => by simp [JVal.beq]
  | .num _, .null => by simp [JVal.beq]
  | .num _, .arr _ => by simp [JVal.beq]
  | .num _, .obj _ => by simp [JVal.beq]
  | .bool _, .str _ => by simp [JVal.beq]
  | .bool _, .num _ => by simp [JVal.beq]
  | .bool _, .null => by simp [JVal.beq]
  | .bool _, .arr _ => by simp [JVal.beq]
  | .bool _, .obj _ => by simp [JVal.beq]
  | .null, .str _ => by simp [JVal.beq]
  | .null, .num _ => by simp [JVal.beq]
  | .null, .bool _ => by simp [JVal.beq]
  | .null, .arr _ => by simp [JVal.beq]
  | .null, .obj _ => by simp [JVal.beq]
  | .arr _, .str _ => by simp [JVal.beq]
  | .arr _, .num _ => by simp [JVal.beq]
  | .arr _, .bool _ => by simp [JVal.beq]
  | .arr _, .null => by simp [JVal.beq]
  | .arr _, .obj _ => by simp [JVal.beq]
  | .obj _, .str _ => by simp [JVal.beq]
  | .obj _, .num _ => by simp [JVal.beq]
  | .obj _, .bool _ => by simp [JVal.beq]
  | .obj _, .null => by simp [JVal.beq]
  | .obj _, .arr _ => by simp [JVal.beq]

theorem JVal.beqL_iff : ∀ xs ys : List JVal, JVal.beqL xs ys = true ↔ xs = ys
  | [], [] => by simp [JVal.beqL]
  | x :: xs, y :: ys => by
      simp [JVal.beqL, JVal.beq_iff x y, JVal.beqL_iff xs ys]
  | [], _ :: _ => by simp [JVal.beqL]
  | _ :: _, [] => by simp [JVal.beqL]

theorem JVal.beqF_iff : ∀ xs ys : List (String × JVal), JVal.beqF xs ys = true ↔ xs = ys
  | [], [] => by simp [JVal.beqF]
  | (k, v) :: xs, (k', v') :: ys => by
      simp [JVal.beqF, JVal.beq_iff v v', JVal.beqF_iff xs ys, and_assoc]
  | [], _ :: _ => by simp [JVal.beqF]
  | _ :: _, [] => by simp [JVal.beqF]

end

instance : DecidableEq JVal := fun a b => decidable_of_iff _ (JVal.beq_iff a b)

/-- An insertion-ordered Python dict with string keys. -/
abbrev PyDict := List (String × JVal)

/-- Python `d[k]` / `d.get(k)`: the value at the first (and only)
occurrence of the key. -/
def dget (d : PyDict) (k : String) : Option JVal :=
  (d.find? (fun kv => kv.1 = k)).map (fun kv => kv.2)

/-- Python `d.get(k, default)`. -/
def dgetD (d : PyDict) (k : String) (v : JVal) : JVal := (dget d k).getD v

/-- Python `d[k] = v`: replace in place if the key exists (CPython keeps
the original position), otherwise append. -/
def dset : PyDict → String → JVal → PyDict
  | [], k, v => [(k, v)]
  | (k', v') :: rest, k, v =>
    if k' = k then (k, v) :: rest else (k', v') :: dset rest k v

/-- Python `list(d)` / iteration order: the keys in insertion order. -/
def dkeys (d : PyDict) : List String := d.map (fun kv => kv.1)

/-- Python `k in d`. -/
def hasKey (d : PyDict) (k : String) : Bool := (dget d k).isSome

/-- Python truthiness of a `JVal` (empty string/list/dict, zero, `None`
and `False` are falsy). -/
def truthy : JVal → Bool
  | .str s => s ≠ ""
  | .num n => n ≠ 0
  | .bool b => b
  | .null => false
  | .arr xs => xs ≠ []
  | .obj fs => fs ≠ []

/-- Truthiness of `d.get(k)` (where a missing key gives falsy `None`). -/
def truthyO : Option JVal → Bool
  | some v => truthy v
  | none => false

/-- The list of elements of a `JVal` used where the source calls
`list.extend(x)`.  The source only ever extends with values that the
well-formedness predicate `wfChunk` below constrains to be lists; on a
non-list Python would iterate a string character-wise or raise
`TypeError`, neither of which is reachable from the claims' inputs. -/
def asArr : JVal → List JVal
  | .arr xs => xs
  | _ => []

/-- The fields of a `JVal` used where the source calls `.get` on a
nested value (constrained to be a dict by `wfChunk`). -/
def asObj : JVal → PyDict
  | .obj fs => fs
  | _ => []

/-- The string content of a `JVal` used where the source concatenates
strings (constrained to be a string by `wfChunk`). -/
def asStr : JVal → String
  | .str s => s
  | _ => ""

/-- Helper for `pyFromKeys`: keep the first occurrence of each element
not already seen. -/
def pyFromKeysAux (seen : List JVal) : List JVal → List JVal
  | [] => []
  | x :: xs =>
    if x ∈ seen then pyFromKeysAux seen xs
    else x :: pyFromKeysAux (x :: seen) xs

/-- Python `list(dict.fromkeys(xs))`: de-duplicate keeping the first
occurrence, preserving order. -/
def pyFromKeys (xs : List JVal) : List JVal := pyFromKeysAux [] xs

/-- Python `list(set(xs))`: the source uses it only to de-duplicate;
CPython's set iteration order is hash-dependent and unspecified, so the
model fixes first-occurrence order and the theorems only rely on
membership and duplicate-freedom, which hold for every possible order. -/
def pySetList (xs : List JVal) : List JVal := pyFromKeys xs

/-! ## The response parser (`clean_json_string`, `parse_json_response`)

`clean_json_string` applies four `re.sub` substitutions in order; each
is modelled by a structurally recursive scan with Python `re`'s
left-to-right, non-overlapping match semantics (ASCII fragment of
`\s`/`\w`). -/

/-- Substitution 1, `re.sub(r'[\x00-\x1f\x7f-\x9f]', '', s)`: delete
control characters (note this includes `\n`, `\r` and `\t`). -/
def removeCtl (l : List Char) : List Char :=
  l.filter (fun c => ¬ (c.toNat ≤ 0x1f ∨ (0x7f ≤ c.toNat ∧ c.toNat ≤ 0x9f)))

/-- Scanner for substitution 2, `re.sub(r',(\s*[}\]])', r'\1', s)`:
`some ws` is the state "a comma was read, followed so far by the
whitespace `ws` (reversed)"; the comma is dropped exactly when the
whitespace run is followed by `}` or `]`. -/
def ftcAux : Option (List Char) → List Char → List Char
  | none, [] => []
  | none, c :: rest =>
    if c = ',' then ftcAux (some []) rest
    else c :: ftcAux none rest
  | some ws, [] => ',' :: ws.reverse
  | some ws, c :: rest =>
    if isPyWs c then ftcAux (some (c :: ws)) rest
    else if c = '}' ∨ c = ']' then ws.reverse ++ (c :: ftcAux none rest)
    else if c = ',' then ',' :: (ws.reverse ++ ftcAux (some []) rest)
    else ',' :: (ws.reverse ++ (c :: ftcAux none rest))

/-- Substitution 2: remove a comma standing directly (up to whitespace)
before a closing `}` or `]`. -/
def fixTrailingCommas (l : List Char) : List Char := ftcAux none l

/-- Word-or-quote character class `["\w]` of substitution 3 (ASCII
fragment of `\w`). -/
def isWordQ (c : Char) : Bool := c = '"' ∨ c.isAlphanum ∨ c = '_'

/-- Scanner for substitution 3,
`re.sub(r'(["\w])\s*\n\s*(["\w])', r'\1 \2', s)`: `some (c1, ws)` is the
state "the class character `c1` was read, followed so far by the
whitespace `ws` (reversed)"; when the whitespace run contains a newline
and is followed by a class character, the run collapses to one space
and scanning resumes after the second character. -/
def fblAux : Option (Char × List Char) → List Char → List Char
  | none, [] => []
  | none, c :: rest =>
    if isWordQ c then fblAux (some (c, [])) rest
    else c :: fblAux none rest
  | some (c1, ws), [] => c1 :: ws.reverse
  | some (c1, ws), c :: rest =>
    if isPyWs c then fblAux (some (c1, c :: ws)) rest
    else if isWordQ c ∧ '\n' ∈ ws then c1 :: ' ' :: c :: fblAux none rest
    else if isWordQ c then (c1 :: ws.reverse) ++ fblAux (some (c, [])) rest
    else (c1 :: ws.reverse) ++ (c :: fblAux none rest)

/-- Substitution 3: join a value broken across a line boundary. -/
def fixBrokenLines (l : List Char) : List Char := fblAux none l

/-- The lookahead `(?=.*".*:)` of substitution 4: within the current
line (regex `.` does not cross newlines), is there a later `"` followed
by a later `:`? -/
def hasQuoteThenColon (l : List Char) : Bool :=
  let line := l.takeWhile (fun c => c ≠ '\n')
  match line.dropWhile (fun c => c ≠ '"') with
  | [] => false
  | _ :: after => ':' ∈ after

/-- Scanner for substitution 4, `re.sub(r'(?<!\\)"(?=.*".*:)', '\\"', s)`:
escape a quote not preceded by a backslash whose lookahead holds;
`prev` is the previous character of the original input (the lookbehind
inspects the input, not the output). -/
def escQuotesAux : Option Char → List Char → List Char
  | _, [] => []
  | prev, c :: rest =>
    if c = '"' ∧ prev ≠ some '\\' ∧ hasQuoteThenColon rest then
      '\\' :: '"' :: escQuotesAux (some '"') rest
    else
      c :: escQuotesAux (some c) rest

/-- Substitution 4: best-effort escaping of quotes that look embedded
inside a string value (the source's own description). -/
def escQuotes (l : List Char) : List Char := escQuotesAux none l

/-- `GeminiPDFProcessor.clean_json_string` (aiscript.py lines 441-457):
the four substitutions in source order. -/
def clean_json_string (json_str : List Char) : List Char :=
  escQuotes (fixBrokenLines (fixTrailingCommas (removeCtl json_str)))

/-- The brace-balance scan of `parse_json_response` (aiscript.py lines
398-412): index of the first `{`, exclusive end index of the position
where the depth returns to zero; `none` when the loop ends without the
break (Python keeps `end_idx = -1`, and `start_idx != -1 and end_idx
!= -1` then fails even if `start_idx` was set). -/
def findSpanAux : List Char → Nat → Int → Option Nat → Option (Nat × Nat)
  | [], _, _, _ => none
  | c :: rest, i, brace_count, start_idx =>
    if c = '{' then
      findSpanAux rest (i + 1) (brace_count + 1) (some (start_idx.getD i))
    else if c = '}' then
      if brace_count - 1 = 0 ∧ start_idx.isSome then
        some (start_idx.getD 0, i + 1)
      else
        findSpanAux rest (i + 1) (brace_count - 1) start_idx
    else
      findSpanAux rest (i + 1) brace_count start_idx

def findSpan (l : List Char) : Option (Nat × Nat) := findSpanAux l 0 0 none

/-! ### A model of `json.loads`

Recursive-descent JSON parser.  Numbers are modelled as integers (the
schema in play carries no fractional numbers; a fraction or exponent is
rejected where Python would build a float).  `\uXXXX` escapes for
surrogate code points are rejected (Python admits lone surrogates).
Python's recursion limit (`RecursionError` on deeply nested input,
which `parse_json_response` would not catch) is not modelled: the fuel
below is always sufficient. -/

def jsonWsChar (c : Char) : Bool := c = ' ' ∨ c = '\t' ∨ c = '\n' ∨ c = '\r'

def skipWs (l : List Char) : List Char := l.dropWhile jsonWsChar

def hexVal (c : Char) : Option Nat :=
  if '0' ≤ c ∧ c ≤ '9' then some (c.toNat - '0'.toNat)
  else if 'a' ≤ c ∧ c ≤ 'f' then some (c.toNat - 'a'.toNat + 10)
  else if 'A' ≤ c ∧ c ≤ 'F' then some (c.toNat - 'A'.toNat + 10)
  else none

/-- JSON string body (after the opening quote): scan until the closing
quote, decoding escapes, rejecting raw control characters (`strict`
mode of `json.loads`). -/
def parseJStrAux : List Char → List Char → Except String (String × List Char)
  | _, [] => .error "Unterminated string"
  | acc, c :: rest =>
    if c = '"' then .ok (String.mk acc.reverse, rest)
    else if c = '\\' then
      match rest with
      | [] => .error "Unterminated string"
      | e :: r2 =>
        if e = '"' then parseJStrAux ('"' :: acc) r2
        else if e = '\\' then parseJStrAux ('\\' :: acc) r2
        else if e = '/' then parseJStrAux ('/' :: acc) r2
        else if e = 'b' then parseJStrAux ('\x08' :: acc) r2
        else if e = 'f' then parseJStrAux ('\x0c' :: acc) r2
        else if e = 'n' then parseJStrAux ('\n' :: acc) r2
        else if e = 'r' then parseJStrAux ('\r' :: acc) r2
        else if e = 't' then parseJStrAux ('\t' :: acc) r2
        else if e = 'u' then
          match r2 with
          | h1 :: h2 :: h3 :: h4 :: r3 =>
            match hexVal h1, hexVal h2, hexVal h3, hexVal h4 with
            | some a, some b, some c2, some d =>
              let n := ((a * 16 + b) * 16 + c2) * 16 + d
              if n < 0xd800 ∨ (0xdfff < n ∧ n < 0x110000) then
                parseJStrAux (Char.ofNat n :: acc) r3
              else .error "surrogate escape not modelled"
            | _, _, _, _ => .error "Invalid hex escape"
          | _ => .error "Invalid hex escape"
        else .error "Invalid escape"
    else if c.toNat < 0x20 then .error "Invalid control character"
    else parseJStrAux (c :: acc) rest

def parseJStr (l : List Char) : Except String (String × List Char) :=
  parseJStrAux [] l

/-- JSON number (integer fragment; see the section comment). -/
def parseJNum (l : List Char) : Except String (JVal × List Char) :=
  let p := match l with
    | '-' :: r => (true, r)
    | _ => (false, l)
  let digits := p.2.takeWhile Char.isDigit
  let rest := p.2.dropWhile Char.isDigit
  if digits = [] then .error "Expecting value"
  else if 1 < digits.length ∧ digits.head? = some '0' then .error "Expecting value"
  else
    match rest with
    | '.' :: _ => .error "fractional number not modelled"
    | 'e' :: _ => .error "exponent number not modelled"
    | 'E' :: _ => .error "exponent number not modelled"
    | _ =>
      let n : Nat := digits.foldl (fun a c => a * 10 + (c.toNat - '0'.toNat)) 0
      .ok (.num (if p.1 then -(n : Int) else (n : Int)), rest)

/-- Parser state: a value, the inside of an object (key expected), or
the inside of an array (item expected). -/
inductive JMode : Type where
  | value
  | objKey (acc : PyDict) (first : Bool)
  | arrItem (acc : List JVal) (first : Bool)

/-- The recursive-descent core, structurally recursive on fuel (each
call strictly decreases it; `jsonLoads` supplies enough for any
input). -/
def jparse : Nat → JMode → List Char → Except String (JVal × List Char)
  | 0, _, _ => .error "recursion limit"
  | fuel + 1, .value, l =>
    match skipWs l with
    | [] => .error "Expecting value"
    | '{' :: rest => jparse fuel (.objKey [] true) rest
    | '[' :: rest => jparse fuel (.arrItem [] true) rest
    | '"' :: rest =>
      match parseJStr rest with
      | .error e => .error e
      | .ok (s, r2) => .ok (.str s, r2)
    | 't' :: rest =>
      if ['r', 'u', 'e'].isPrefixOf rest then .ok (.bool true, rest.drop 3)
      else .error "Expecting value"
    | 'f' :: rest =>
      if ['a', 'l', 's', 'e'].isPrefixOf rest then .ok (.bool false, rest.drop 4)
      else .error "Expecting value"
    | 'n' :: rest =>
      if ['u', 'l', 'l'].isPrefixOf rest then .ok (.null, rest.drop 3)
      else .error "Expecting value"
    | c :: rest =>
      if c = '-' ∨ c.isDigit then parseJNum (c :: rest)
      else .error "Expecting value"
  | fuel + 1, .objKey acc first, l =>
    match skipWs l with
    | '}' :: rest =>
      if first then .ok (.obj acc, rest)
      else .error "Expecting property name enclosed in double quotes"
    | '"' :: rest =>
      match parseJStr rest with
      | .error e => .error e
      | .ok (key, r2) =>
        match skipWs r2 with
        | ':' :: r3 =>
          match jparse fuel .value r3 with
          | .error e => .error e
          | .ok (v, r4) =>
            match skipWs r4 with
            | ',' :: r5 => jparse fuel (.objKey (dset acc key v) false) r5
            | '}' :: r5 => .ok (.obj (dset acc key v), r5)
            | _ => .error "Expecting delimiter"
        | _ => .error "Expecting colon delimiter"
    | _ => .error "Expecting property name enclosed in double quotes"
  | fuel + 1, .arrItem acc first, l =>
    match skipWs l with
    | ']' :: rest =>
      if first then .ok (.arr acc.reverse, rest)
      else .error "Expecting value"
    | _ =>
      match jparse fuel .value l with
      | .error e => .error e
      | .ok (v, r2) =>
        match skipWs r2 with
        | ',' :: r3 => jparse fuel (.arrItem (v :: acc) false) r3
        | ']' :: r3 => .ok (.arr (v :: acc).reverse, r3)
        | _ => .error "Expecting delimiter"

/-- `json.loads`: parse one value, require only whitespace after it. -/
def jsonLoads (l : List Char) : Except String JVal :=
  match jparse (2 * l.length + 4) .value l with
  | .error e => .error e
  | .ok (v, rest) => if skipWs rest = [] then .ok v else .error "Extra data"

/-- The fallback dictionary of `parse_json_response` for text with no
balanced brace span (aiscript.py lines 425-430). -/
def noJsonFallback (response_text : List Char) (method : String) : PyDict :=
  [("raw_response", .str (String.mk response_text)),
   ("processing_method", .str method),
   ("error", .str "No valid JSON structure found"),
   ("note", .str "Content extraction failed - check raw_response for manual review")]

/-- The fallback dictionary of `parse_json_response` on a
`json.JSONDecodeError` (aiscript.py lines 432-439). -/
def parseFailFallback (response_text : List Char) (method : String) (err : String) : PyDict :=
  [("raw_response", .str (String.mk response_text)),
   ("processing_method", .str method),
   ("json_error", .str err),
   ("error", .str "JSON parsing failed"),
   ("note", .str "Content extraction failed - check raw_response for manual review")]

/-- Leading code-fence removal of `parse_json_response` (aiscript.py
lines 390-393). -/
def stripStartFence (l : List Char) : List Char :=
  if ("```json".data).isPrefixOf l then l.drop 7
  else if ("```".data).isPrefixOf l then l.drop 3
  else l

/-- Trailing code-fence removal of `parse_json_response` (aiscript.py
lines 395-396). -/
def stripEndFence (l : List Char) : List Char :=
  if ("```".data).isSuffixOf l then l.take (l.length - 3) else l

/-- The whitespace-strip and code-fence removal prologue of
`parse_json_response` (aiscript.py lines 387-396). -/
def stripFences (response_text : List Char) : List Char :=
  stripEndFence (stripStartFence (pyStrip response_text))

/-- `GeminiPDFProcessor.parse_json_response` (aiscript.py lines
383-439).  The `time.strftime` timestamp is an explicit parameter.  A
successful `json.loads` on the extracted span always yields a dict
(the span starts at `{`, and every cleaning pass keeps a leading
`{`), so `asObj` is exact on every reachable success. -/
def parse_json_response (response_text : List Char) (method : String)
    (timestamp : String) : PyDict :=
  match findSpan (stripFences response_text) with
  | some (start_idx, end_idx) =>
    match jsonLoads (clean_json_string
        (((stripFences response_text).drop start_idx).take (end_idx - start_idx))) with
    | .ok v =>
      dset (dset (asObj v) "processing_method" (.str method))
        "processed_timestamp" (.str timestamp)
    | .error err => parseFailFallback response_text method err
  | none => noJsonFallback response_text method

/-! ## Parser claims -/

theorem pyStrip_subset (l : List Char) : ∀ c ∈ pyStrip l, c ∈ l := by
  intro c hc
  unfold pyStrip at hc
  rw [List.mem_reverse] at hc
  have h1 := (List.dropWhile_sublist (l := (l.dropWhile isPyWs).reverse) isPyWs).subset hc
  rw [List.mem_reverse] at h1
  exact (List.dropWhile_sublist isPyWs).subset h1

theorem stripStartFence_subset (l : List Char) : ∀ c ∈ stripStartFence l, c ∈ l := by
  intro c hc
  unfold stripStartFence at hc
  split at hc
  · exact (List.drop_sublist _ _).subset hc
  · split at hc
    · exact (List.drop_sublist _ _).subset hc
    · exact hc

theorem stripEndFence_subset (l : List Char) : ∀ c ∈ stripEndFence l, c ∈ l := by
  intro c hc
  unfold stripEndFence at hc
  split at hc
  · exact (List.take_sublist _ _).subset hc
  · exact hc

theorem stripFences_subset (l : List Char) : ∀ c ∈ stripFences l, c ∈ l := by
  intro c hc
  exact pyStrip_subset l c
    (stripStartFence_subset _ c (stripEndFence_subset _ c hc))

theorem findSpanAux_none_of_no_braces :
    ∀ (l : List Char) (i : Nat) (cnt : Int) (st : Option Nat),
      (∀ c ∈ l, c ≠ '{' ∧ c ≠ '}') → findSpanAux l i cnt st = none
  | [], _, _, _, _ => rfl
  | c :: rest, i, cnt, st, h => by
    have hc := h c (by simp)
    rw [findSpanAux, if_neg (by simpa using hc.1), if_neg (by simpa using hc.2)]
    exact findSpanAux_none_of_no_braces rest (i + 1) cnt st
      (fun d hd => h d (by simp [hd]))

/-- Claim C6 (amended): on input with no brace at all,
`parse_json_response` returns the no-structure fallback, whose
`raw_response` is the original text and whose `error` tag is the
string `"No valid JSON structure found"`. -/
theorem c6_amended_no_brace_fallback (response_text : List Char) (method timestamp : String)
    (h : ∀ c ∈ response_text, c ≠ '{' ∧ c ≠ '}') :
    parse_json_response response_text method timestamp
      = noJsonFallback response_text method ∧
    dget (noJsonFallback response_text method) "raw_response"
      = some (.str (String.mk response_text)) ∧
    dget (noJsonFallback response_text method) "error"
      = some (.str "No valid JSON structure found") := by
  refine ⟨?_, rfl, rfl⟩
  have hspan : findSpan (stripFences response_text) = none :=
    findSpanAux_none_of_no_braces _ 0 0 none
      (fun c hc => h c (stripFences_subset response_text c hc))
  unfold parse_json_response
  rw [hspan]

/-- Witness for the amended C6 at a concrete input. -/
theorem c6_amended_no_brace_fallback_witness :
    parse_json_response ("hello there".data) "m" "TS"
      = noJsonFallback ("hello there".data) "m" ∧
    dget (noJsonFallback ("hello there".data) "m") "raw_response"
      = some (.str (String.mk ("hello there".data))) ∧
    dget (noJsonFallback ("hello there".data) "m") "error"
      = some (.str "No valid JSON structure found") :=
  c6_amended_no_brace_fallback ("hello there".data) "m" "TS" (by decide)

/-- Claim C6 counterexample: the error tag on brace-free input is
`"No valid JSON structure found"`, not the claimed
`"no JSON structure found"`. -/
theorem c6_counterexample :
    dget (parse_json_response ("hello there".data) "m" "TS") "error"
      = some (.str "No valid JSON structure found") ∧
    dget (parse_json_response ("hello there".data) "m" "TS") "error"
      ≠ some (.str "no JSON structure found") := by
  exact ⟨rfl, by decide⟩

/-- Claim C1 (code bug): the response text is a well-formed JSON object
in a markdown fence, the brace scan extracts exactly the object
`\x7b"a": 1\x7d` (which `json.loads` accepts as is, third conjunct),
yet `parse_json_response` returns the JSON-parsing fallback, because
`clean_json_string`'s unescaped-quote substitution corrupts the span
into `\x7b\"a": 1\x7d` (second conjunct) before parsing. -/
theorem c1_wellformed_object_rejected (timestamp : String) :
    parse_json_response ("```json\n\x7b\"a\": 1\x7d\n```".data) "direct_upload" timestamp
      = parseFailFallback ("```json\n\x7b\"a\": 1\x7d\n```".data) "direct_upload"
          "Expecting property name enclosed in double quotes" ∧
    clean_json_string ("\x7b\"a\": 1\x7d".data) = ("\x7b\\\"a\": 1\x7d".data) ∧
    jsonLoads ("\x7b\"a\": 1\x7d".data) = .ok (.obj [("a", .num 1)]) := by
  refine ⟨rfl, rfl, rfl⟩

/-- Claim C2: `parse_json_response` is a total function whose result is
always one of three explicit shapes: the parsed object tagged with
`processing_method` and `processed_timestamp`, the JSON-parsing
fallback, or the no-structure fallback; both fallbacks carry the
original raw response and an `error` tag, so success and failure are
distinguishable without exceptions. -/
theorem c2_parse_total_shape (response_text : List Char) (method timestamp : String) :
    ((∃ v : JVal, parse_json_response response_text method timestamp
        = dset (dset (asObj v) "processing_method" (.str method))
            "processed_timestamp" (.str timestamp)) ∨
     (∃ err : String, parse_json_response response_text method timestamp
        = parseFailFallback response_text method err) ∨
     parse_json_response response_text method timestamp
        = noJsonFallback response_text method) ∧
    (∀ err : String,
      dget (parseFailFallback response_text method err) "raw_response"
        = some (.str (String.mk response_text)) ∧
      dget (parseFailFallback response_text method err) "error"
        = some (.str "JSON parsing failed")) ∧
    dget (noJsonFallback response_text method) "raw_response"
      = some (.str (String.mk response_text)) ∧
    dget (noJsonFallback response_text method) "error"
      = some (.str "No valid JSON structure found") := by
  refine ⟨?_, fun err => ⟨rfl, rfl⟩, rfl, rfl⟩
  unfold parse_json_response
  split
  · split
    · left; exact ⟨_, rfl⟩
    · right; left; exact ⟨_, rfl⟩
  · right; right; rfl

/-! ## The result merger (`GeminiPDFProcessor.merge_chunk_results`)

The merged dict starts from the fixed skeleton (aiscript.py lines
315-338), is folded over the chunk results with one field-group at a
time (lines 340-373), and is finished by the two de-duplication passes
(lines 375-379).  Each block of the source loop body is one `merge...`
function below; `mergeStep` is their composition in source order. -/

/-- `"error" in chunk_result` (aiscript.py line 342). -/
def hasError (cr : PyDict) : Bool := hasKey cr "error"

/-- The five plain-concatenation array fields (aiscript.py line 361). -/
def arrayFields : List String :=
  ["detailed_sections", "rules_and_provisions", "penalties_and_consequences",
   "action_items", "definitions"]

/-- The six entity categories of the skeleton (aiscript.py lines
325-332). -/
def entityCats : List String :=
  ["people", "organizations", "locations", "amounts", "dates", "references"]

/-- The merged skeleton (aiscript.py lines 315-338). -/
def mergedSkeleton (n : Nat) : PyDict :=
  [("document_info", .obj []),
   ("main_content", .obj
     [("purpose", .str ""), ("summary", .str ""), ("key_points", .arr [])]),
   ("detailed_sections", .arr []),
   ("rules_and_provisions", .arr []),
   ("penalties_and_consequences", .arr []),
   ("important_entities", .obj
     [("people", .arr []), ("organizations", .arr []), ("locations", .arr []),
      ("amounts", .arr []), ("dates", .arr []), ("references", .arr [])]),
   ("action_items", .arr []),
   ("definitions", .arr []),
   ("full_text_content", .str ""),
   ("processing_method", .str "multi_chunk"),
   ("total_chunks", .num n)]

/-- `chunk_result.get("main_content", {})` (aiscript.py line 350). -/
def mcOf (cr : PyDict) : PyDict := asObj (dgetD cr "main_content" (.obj []))

/-- `chunk_result.get("important_entities", {})` (aiscript.py line 366). -/
def entOf (cr : PyDict) : PyDict := asObj (dgetD cr "important_entities" (.obj []))

/-- Document-info merge (aiscript.py lines 345-347). -/
def mergeDocInfo (merged cr : PyDict) : PyDict :=
  if ¬ truthy (dgetD merged "document_info" .null) ∧ truthyO (dget cr "document_info") then
    dset merged "document_info" (dgetD cr "document_info" .null)
  else merged

/-- `if main_content.get("purpose") and not merged[...]["purpose"]`
(aiscript.py lines 351-352). -/
def mergePurposeStep (cr : PyDict) (mm : PyDict) : PyDict :=
  if truthyO (dget (mcOf cr) "purpose") ∧ ¬ truthy (dgetD mm "purpose" .null) then
    dset mm "purpose" (dgetD (mcOf cr) "purpose" .null)
  else mm

/-- `merged[...]["summary"] += " " + main_content["summary"]`
(aiscript.py lines 354-355). -/
def mergeSummaryStep (cr : PyDict) (mm : PyDict) : PyDict :=
  if truthyO (dget (mcOf cr) "summary") then
    dset mm "summary"
      (.str (asStr (dgetD mm "summary" .null) ++ " " ++ asStr (dgetD (mcOf cr) "summary" .null)))
  else mm

/-- `merged[...]["key_points"].extend(...)` (aiscript.py lines 357-358). -/
def mergeKpStep (cr : PyDict) (mm : PyDict) : PyDict :=
  if truthyO (dget (mcOf cr) "key_points") then
    dset mm "key_points"
      (.arr (asArr (dgetD mm "key_points" .null) ++ asArr (dgetD (mcOf cr) "key_points" .null)))
  else mm

/-- Main-content merge (aiscript.py lines 349-358): purpose (first
non-empty wins), summary (space-prefixed concatenation), key_points
(list extension), applied to the nested `main_content` dict. -/
def mergeMainContent (merged cr : PyDict) : PyDict :=
  dset merged "main_content" (.obj
    (mergeKpStep cr (mergeSummaryStep cr (mergePurposeStep cr
      (asObj (dgetD merged "main_content" .null))))))

/-- Plain array-field merge loop (aiscript.py lines 360-363). -/
def mergeArrays (merged cr : PyDict) : PyDict :=
  arrayFields.foldl (fun m field =>
    if truthyO (dget cr field) then
      dset m field (.arr (asArr (dgetD m field .null) ++ asArr (dgetD cr field .null)))
    else m) merged

/-- One entity-category extension (aiscript.py lines 367-369). -/
def entAccStep (cr : PyDict) (acc : PyDict) (k : String) : PyDict :=
  if truthyO (dget (entOf cr) k) then
    dset acc k (.arr (asArr (dgetD acc k .null) ++ asArr (dgetD (entOf cr) k .null)))
  else acc

/-- Entity merge: `for entity_type in merged["important_entities"]`
iterates the keys of the merged entity dict (aiscript.py lines
365-369). -/
def mergeEntities (merged cr : PyDict) : PyDict :=
  dset merged "important_entities" (.obj
    ((dkeys (asObj (dgetD merged "important_entities" .null))).foldl (entAccStep cr)
      (asObj (dgetD merged "important_entities" .null))))

/-- Full-text concatenation (aiscript.py lines 371-373). -/
def mergeFullText (merged cr : PyDict) : PyDict :=
  if truthyO (dget cr "full_text_content") then
    dset merged "full_text_content"
      (.str (asStr (dgetD merged "full_text_content" .null) ++ "\n\n"
        ++ asStr (dgetD cr "full_text_content" .null)))
  else merged

/-- One iteration of `for chunk_result in chunk_results` (aiscript.py
lines 341-373): error markers are skipped, the field groups are merged
in source order. -/
def mergeStep (merged cr : PyDict) : PyDict :=
  if hasError cr then merged
  else mergeFullText (mergeEntities (mergeArrays (mergeMainContent
    (mergeDocInfo merged cr) cr) cr) cr) cr

/-- Entity de-duplication pass, `list(set(...))` per category
(aiscript.py lines 376-377). -/
def dedupEntities (merged : PyDict) : PyDict :=
  dset merged "important_entities" (.obj
    ((dkeys (asObj (dgetD merged "important_entities" .null))).foldl
      (fun acc k => dset acc k (.arr (pySetList (asArr (dgetD acc k .null)))))
      (asObj (dgetD merged "important_entities" .null))))

/-- Key-point de-duplication pass, `list(dict.fromkeys(...))`
(aiscript.py line 379). -/
def dedupKeyPoints (merged : PyDict) : PyDict :=
  dset merged "main_content" (.obj
    (dset (asObj (dgetD merged "main_content" .null)) "key_points"
      (.arr (pyFromKeys (asArr (dgetD (asObj (dgetD merged "main_content" .null))
        "key_points" .null))))))

/-- `GeminiPDFProcessor.merge_chunk_results` (aiscript.py lines
313-381).  `pdf_path` is a parameter of the source function that its
body never uses. -/
def merge_chunk_results (chunk_results : List PyDict) (pdf_path : String) : PyDict :=
  dedupKeyPoints (dedupEntities
    (chunk_results.foldl mergeStep (mergedSkeleton chunk_results.length)))

/-! ## Closed form of the merge fold

Every accumulator of the merge fold is an instance of `mkMerged`; each
field-group update acts on one slot via its `upd...` function, so the
whole fold is characterized slot by slot over the non-error chunk
results. -/

/-- The skeleton with each slot filled. -/
def mkMerged (di p : JVal) (s : String)
    (kp ds rp pc pe og lo am da re ai df : List JVal)
    (ftc : String) (tc : JVal) : PyDict :=
  [("document_info", di),
   ("main_content", .obj
     [("purpose", p), ("summary", .str s), ("key_points", .arr kp)]),
   ("detailed_sections", .arr ds),
   ("rules_and_provisions", .arr rp),
   ("penalties_and_consequences", .arr pc),
   ("important_entities", .obj
     [("people", .arr pe), ("organizations", .arr og), ("locations", .arr lo),
      ("amounts", .arr am), ("dates", .arr da), ("references", .arr re)]),
   ("action_items", .arr ai),
   ("definitions", .arr df),
   ("full_text_content", .str ftc),
   ("processing_method", .str "multi_chunk"),
   ("total_chunks", tc)]

theorem mergedSkeleton_mk (n : Nat) :
    mergedSkeleton n
      = mkMerged (.obj []) (.str "") "" [] [] [] [] [] [] [] [] [] [] [] [] "" (.num n) := rfl

/-- Slot update of `document_info` by one chunk. -/
def updDI (di : JVal) (cr : PyDict) : JVal :=
  if ¬ truthy di ∧ truthyO (dget cr "document_info") then dgetD cr "document_info" .null
  else di

/-- Slot update of `main_content.purpose` by one chunk. -/
def updP (p : JVal) (cr : PyDict) : JVal :=
  if truthyO (dget (mcOf cr) "purpose") ∧ ¬ truthy p then dgetD (mcOf cr) "purpose" .null
  else p

/-- Slot update of `main_content.summary` by one chunk. -/
def updS (s : String) (cr : PyDict) : String :=
  if truthyO (dget (mcOf cr) "summary") then
    s ++ " " ++ asStr (dgetD (mcOf cr) "summary" .null)
  else s

/-- Slot update of `main_content.key_points` by one chunk. -/
def updKp (kp : List JVal) (cr : PyDict) : List JVal :=
  if truthyO (dget (mcOf cr) "key_points") then
    kp ++ asArr (dgetD (mcOf cr) "key_points" .null)
  else kp

/-- Slot update of one plain array field by one chunk. -/
def updArr (field : String) (cur : List JVal) (cr : PyDict) : List JVal :=
  if truthyO (dget cr field) then cur ++ asArr (dgetD cr field .null) else cur

/-- Slot update of one entity category by one chunk. -/
def updEnt (cat : String) (cur : List JVal) (cr : PyDict) : List JVal :=
  if truthyO (dget (entOf cr) cat) then cur ++ asArr (dgetD (entOf cr) cat .null) else cur

/-- Slot update of `full_text_content` by one chunk. -/
def updFtc (ftc : String) (cr : PyDict) : String :=
  if truthyO (dget cr "full_text_content") then
    ftc ++ "\n\n" ++ asStr (dgetD cr "full_text_content" .null)
  else ftc

theorem mergeDocInfo_mk (cr : PyDict) (di p : JVal) (s : String)
    (kp ds rp pc pe og lo am da re ai df : List JVal) (ftc : String) (tc : JVal) :
    mergeDocInfo (mkMerged di p s kp ds rp pc pe og lo am da re ai df ftc tc) cr
      = mkMerged (updDI di cr) p s kp ds rp pc pe og lo am da re ai df ftc tc := by
  unfold mergeDocInfo updDI
  have h1 : dgetD (mkMerged di p s kp ds rp pc pe og lo am da re ai df ftc tc)
      "document_info" .null = di := rfl
  rw [h1]
  split
  · rfl
  · rfl

theorem mergeMainContent_mk (cr : PyDict) (di p : JVal) (s : String)
    (kp ds rp pc pe og lo am da re ai df : List JVal) (ftc : String) (tc : JVal) :
    mergeMainContent (mkMerged di p s kp ds rp pc pe og lo am da re ai df ftc tc) cr
      = mkMerged di (updP p cr) (updS s cr) (updKp kp cr)
          ds rp pc pe og lo am da re ai df ftc tc := by
  unfold mergeMainContent mergePurposeStep mergeSummaryStep mergeKpStep updP updS updKp
  have h1 : asObj (dgetD (mkMerged di p s kp ds rp pc pe og lo am da re ai df ftc tc)
      "main_content" .null)
      = [("purpose", p), ("summary", .str s), ("key_points", .arr kp)] := rfl
  rw [h1]
  have h2 : dgetD [("purpose", p), ("summary", .str s), ("key_points", .arr kp)]
      "purpose" .null = p := rfl
  rw [h2]
  split <;> split <;> split <;> rfl

theorem mergeArrays_mk (cr : PyDict) (di p : JVal) (s : String)
    (kp ds rp pc pe og lo am da re ai df : List JVal) (ftc : String) (tc : JVal) :
    mergeArrays (mkMerged di p s kp ds rp pc pe og lo am da re ai df ftc tc) cr
      = mkMerged di p s kp (updArr "detailed_sections" ds cr)
          (updArr "rules_and_provisions" rp cr)
          (updArr "penalties_and_consequences" pc cr) pe og lo am da re
          (updArr "action_items" ai cr) (updArr "definitions" df cr) ftc tc := by
  unfold mergeArrays updArr
  simp only [arrayFields, List.foldl_cons, List.foldl_nil]
  split <;> split <;> split <;> split <;> split <;> rfl

theorem mergeEntities_mk (cr : PyDict) (di p : JVal) (s : String)
    (kp ds rp pc pe og lo am da re ai df : List JVal) (ftc : String) (tc : JVal) :
    mergeEntities (mkMerged di p s kp ds rp pc pe og lo am da re ai df ftc tc) cr
      = mkMerged di p s kp ds rp pc (updEnt "people" pe cr)
          (updEnt "organizations" og cr) (updEnt "locations" lo cr)
          (updEnt "amounts" am cr) (updEnt "dates" da cr)
          (updEnt "references" re cr) ai df ftc tc := by
  unfold mergeEntities entAccStep updEnt
  have h1 : asObj (dgetD (mkMerged di p s kp ds rp pc pe og lo am da re ai df ftc tc)
      "important_entities" .null)
      = [("people", .arr pe), ("organizations", .arr og), ("locations", .arr lo),
         ("amounts", .arr am), ("dates", .arr da), ("references", .arr re)] := rfl
  rw [h1]
  simp only [dkeys, List.map_cons, List.map_nil, List.foldl_cons, List.foldl_nil]
  split <;> split <;> split <;> split <;> split <;> split <;> rfl

theorem mergeFullText_mk (cr : PyDict) (di p : JVal) (s : String)
    (kp ds rp pc pe og lo am da re ai df : List JVal) (ftc : String) (tc : JVal) :
    mergeFullText (mkMerged di p s kp ds rp pc pe og lo am da re ai df ftc tc) cr
      = mkMerged di p s kp ds rp pc pe og lo am da re ai df (updFtc ftc cr) tc := by
  unfold mergeFullText updFtc
  have h1 : asStr (dgetD (mkMerged di p s kp ds rp pc pe og lo am da re ai df ftc tc)
      "full_text_content" .null) = ftc := rfl
  rw [h1]
  split
  · rfl
  · rfl

theorem mergeStep_err (m cr : PyDict) (h : hasError cr = true) : mergeStep m cr = m := by
  simp [mergeStep, h]

theorem mergeStep_mk (cr : PyDict) (h : hasError cr = false) (di p : JVal) (s : String)
    (kp ds rp pc pe og lo am da re ai df : List JVal) (ftc : String) (tc : JVal) :
    mergeStep (mkMerged di p s kp ds rp pc pe og lo am da re ai df ftc tc) cr
      = mkMerged (updDI di cr) (updP p cr) (updS s cr) (updKp kp cr)
          (updArr "detailed_sections" ds cr) (updArr "rules_and_provisions" rp cr)
          (updArr "penalties_and_consequences" pc cr) (updEnt "people" pe cr)
          (updEnt "organizations" og cr) (updEnt "locations" lo cr)
          (updEnt "amounts" am cr) (updEnt "dates" da cr) (updEnt "references" re cr)
          (updArr "action_items" ai cr) (updArr "definitions" df cr)
          (updFtc ftc cr) tc := by
  unfold mergeStep
  rw [if_neg (by simp [h]), mergeDocInfo_mk, mergeMainContent_mk, mergeArrays_mk,
    mergeEntities_mk, mergeFullText_mk]

/-- The non-error chunk results, in order. -/
def okFilter (rs : List PyDict) : List PyDict := rs.filter (fun cr => ¬ hasError cr)

theorem foldl_mergeStep_mk :
    ∀ (rs : List PyDict) (di p : JVal) (s : String)
      (kp ds rp pc pe og lo am da re ai df : List JVal) (ftc : String) (tc : JVal),
    rs.foldl mergeStep (mkMerged di p s kp ds rp pc pe og lo am da re ai df ftc tc)
      = mkMerged ((okFilter rs).foldl updDI di) ((okFilter rs).foldl updP p)
          ((okFilter rs).foldl updS s) ((okFilter rs).foldl updKp kp)
          ((okFilter rs).foldl (updArr "detailed_sections") ds)
          ((okFilter rs).foldl (updArr "rules_and_provisions") rp)
          ((okFilter rs).foldl (updArr "penalties_and_consequences") pc)
          ((okFilter rs).foldl (updEnt "people") pe)
          ((okFilter rs).foldl (updEnt "organizations") og)
          ((okFilter rs).foldl (updEnt "locations") lo)
          ((okFilter rs).foldl (updEnt "amounts") am)
          ((okFilter rs).foldl (updEnt "dates") da)
          ((okFilter rs).foldl (updEnt "references") re)
          ((okFilter rs).foldl (updArr "action_items") ai)
          ((okFilter rs).foldl (updArr "definitions") df)
          ((okFilter rs).foldl updFtc ftc) tc
  | [], di, p, s, kp, ds, rp, pc, pe, og, lo, am, da, re, ai, df, ftc, tc => by
    simp [okFilter]
  | cr :: rs, di, p, s, kp, ds, rp, pc, pe, og, lo, am, da, re, ai, df, ftc, tc => by
    by_cases h : hasError cr = true
    · have hf : okFilter (cr :: rs) = okFilter rs := by simp [okFilter, h]
      rw [List.foldl_cons, mergeStep_err _ _ h, foldl_mergeStep_mk rs, hf]
    · have hb : hasError cr = false := by simpa using h
      have hf : okFilter (cr :: rs) = cr :: okFilter rs := by simp [okFilter, hb]
      rw [List.foldl_cons, mergeStep_mk cr hb, foldl_mergeStep_mk rs]
      simp only [hf, List.foldl_cons]

theorem dedupEntities_mk (di p : JVal) (s : String)
    (kp ds rp pc pe og lo am da re ai df : List JVal) (ftc : String) (tc : JVal) :
    dedupEntities (mkMerged di p s kp ds rp pc pe og lo am da re ai df ftc tc)
      = mkMerged di p s kp ds rp pc (pySetList pe) (pySetList og) (pySetList lo)
          (pySetList am) (pySetList da) (pySetList re) ai df ftc tc := rfl

theorem dedupKeyPoints_mk (di p : JVal) (s : String)
    (kp ds rp pc pe og lo am da re ai df : List JVal) (ftc : String) (tc : JVal) :
    dedupKeyPoints (mkMerged di p s kp ds rp pc pe og lo am da re ai df ftc tc)
      = mkMerged di p s (pyFromKeys kp) ds rp pc pe og lo am da re ai df ftc tc := rfl

/-- The merge, slot by slot: `merge_chunk_results` equals the skeleton
with each slot folded over the non-error chunk results and the two
de-duplication passes applied. -/
theorem merge_chunk_results_closed (rs : List PyDict) (pdf_path : String) :
    merge_chunk_results rs pdf_path
      = mkMerged ((okFilter rs).foldl updDI (.obj [])) ((okFilter rs).foldl updP (.str ""))
          ((okFilter rs).foldl updS "") (pyFromKeys ((okFilter rs).foldl updKp []))
          ((okFilter rs).foldl (updArr "detailed_sections") [])
          ((okFilter rs).foldl (updArr "rules_and_provisions") [])
          ((okFilter rs).foldl (updArr "penalties_and_consequences") [])
          (pySetList ((okFilter rs).foldl (updEnt "people") []))
          (pySetList ((okFilter rs).foldl (updEnt "organizations") []))
          (pySetList ((okFilter rs).foldl (updEnt "locations") []))
          (pySetList ((okFilter rs).foldl (updEnt "amounts") []))
          (pySetList ((okFilter rs).foldl (updEnt "dates") []))
          (pySetList ((okFilter rs).foldl (updEnt "references") []))
          ((okFilter rs).foldl (updArr "action_items") [])
          ((okFilter rs).foldl (updArr "definitions") [])
          ((okFilter rs).foldl updFtc "") (.num rs.length) := by
  unfold merge_chunk_results
  rw [mergedSkeleton_mk, foldl_mergeStep_mk, dedupEntities_mk, dedupKeyPoints_mk]

/-! ## De-duplication semantics -/

theorem mem_pyFromKeysAux : ∀ (seen l : List JVal) (x : JVal),
    x ∈ pyFromKeysAux seen l ↔ x ∈ l ∧ x ∉ seen
  | seen, [], x => by simp [pyFromKeysAux]
  | seen, y :: l, x => by
    rw [pyFromKeysAux]
    by_cases hy : y ∈ seen
    · rw [if_pos hy, mem_pyFromKeysAux seen l x]
      simp only [List.mem_cons]
      constructor
      · rintro ⟨h1, h2⟩
        exact ⟨Or.inr h1, h2⟩
      · rintro ⟨h1 | h1, h2⟩
        · exact absurd (h1 ▸ hy) h2
        · exact ⟨h1, h2⟩
    · rw [if_neg hy]
      simp only [List.mem_cons, mem_pyFromKeysAux (y :: seen) l x, List.mem_cons]
      constructor
      · rintro (h | ⟨h1, h2⟩)
        · exact ⟨Or.inl h, h ▸ hy⟩
        · exact ⟨Or.inr h1, fun hs => h2 (Or.inr hs)⟩
      · rintro ⟨h1 | h1, h2⟩
        · exact Or.inl h1
        · by_cases hxy : x = y
          · exact Or.inl hxy
          · exact Or.inr ⟨h1, fun hs => hs.elim hxy h2⟩

theorem nodup_pyFromKeysAux : ∀ (seen l : List JVal), (pyFromKeysAux seen l).Nodup
  | _, [] => List.nodup_nil
  | seen, y :: l => by
    rw [pyFromKeysAux]
    by_cases hy : y ∈ seen
    · rw [if_pos hy]
      exact nodup_pyFromKeysAux seen l
    · rw [if_neg hy]
      refine List.nodup_cons.mpr ⟨?_, nodup_pyFromKeysAux (y :: seen) l⟩
      intro hmem
      exact ((mem_pyFromKeysAux (y :: seen) l y).mp hmem).2 (by simp)

theorem sublist_pyFromKeysAux : ∀ (seen l : List JVal), (pyFromKeysAux seen l).Sublist l
  | _, [] => .slnil
  | seen, y :: l => by
    rw [pyFromKeysAux]
    by_cases hy : y ∈ seen
    · rw [if_pos hy]
      exact (sublist_pyFromKeysAux seen l).cons y
    · rw [if_neg hy]
      exact (sublist_pyFromKeysAux (y :: seen) l).cons₂ y

theorem mem_pyFromKeys (l : List JVal) (x : JVal) : x ∈ pyFromKeys l ↔ x ∈ l := by
  rw [pyFromKeys, mem_pyFromKeysAux]
  simp

theorem nodup_pyFromKeys (l : List JVal) : (pyFromKeys l).Nodup :=
  nodup_pyFromKeysAux [] l

theorem sublist_pyFromKeys (l : List JVal) : (pyFromKeys l).Sublist l :=
  sublist_pyFromKeysAux [] l

theorem pyFromKeysAux_eq_of_nodup :
    ∀ (seen l : List JVal), l.Nodup → (∀ x ∈ l, x ∉ seen) → pyFromKeysAux seen l = l
  | _, [], _, _ => rfl
  | seen, y :: l, hnd, hdis => by
    rw [pyFromKeysAux, if_neg (hdis y (by simp))]
    congr 1
    refine pyFromKeysAux_eq_of_nodup (y :: seen) l (List.nodup_cons.mp hnd).2 ?_
    intro x hx hmem
    rcases List.mem_cons.mp hmem with h | h
    · exact (List.nodup_cons.mp hnd).1 (h ▸ hx)
    · exact hdis x (by simp [hx]) h

/-- A duplicate-free list is returned unchanged by first-occurrence
de-duplication. -/
theorem pyFromKeys_eq_of_nodup (l : List JVal) (h : l.Nodup) : pyFromKeys l = l :=
  pyFromKeysAux_eq_of_nodup [] l h (by simp)

/-! ## Per-chunk contribution functions and well-formedness -/

/-- The `key_points` list one non-error chunk contributes (empty when
the field is missing or falsy, as the source's truthiness guard
skips it). -/
def kpOf (cr : PyDict) : List JVal :=
  if truthyO (dget (mcOf cr) "key_points") then asArr (dgetD (mcOf cr) "key_points" .null)
  else []

/-- The list one non-error chunk contributes to one entity category. -/
def entListOf (cat : String) (cr : PyDict) : List JVal :=
  if truthyO (dget (entOf cr) cat) then asArr (dgetD (entOf cr) cat .null) else []

/-- The list one non-error chunk contributes to one plain array field. -/
def arrFieldOf (field : String) (cr : PyDict) : List JVal :=
  if truthyO (dget cr field) then asArr (dgetD cr field .null) else []

theorem updKp_eq (kp : List JVal) (cr : PyDict) : updKp kp cr = kp ++ kpOf cr := by
  unfold updKp kpOf
  split
  · rfl
  · simp

theorem updEnt_eq (cat : String) (cur : List JVal) (cr : PyDict) :
    updEnt cat cur cr = cur ++ entListOf cat cr := by
  unfold updEnt entListOf
  split
  · rfl
  · simp

theorem updArr_eq (field : String) (cur : List JVal) (cr : PyDict) :
    updArr field cur cr = cur ++ arrFieldOf field cr := by
  unfold updArr arrFieldOf
  split
  · rfl
  · simp

theorem foldl_updlike (f : List JVal → PyDict → List JVal) (g : PyDict → List JVal)
    (hf : ∀ a c, f a c = a ++ g c) :
    ∀ (l : List PyDict) (init : List JVal),
      l.foldl f init = init ++ (l.map g).flatten
  | [], init => by simp
  | c :: l, init => by
    rw [List.foldl_cons, hf, foldl_updlike f g hf l]
    simp

/-- Projection of a top-level merged field. -/
def mProj (m : PyDict) (k : String) : JVal := dgetD m k .null

/-- Projection of a `main_content` field of a merged document. -/
def mcProj (m : PyDict) (k : String) : JVal := dgetD (asObj (mProj m "main_content")) k .null

/-- Projection of one entity category of a merged document. -/
def entProj (m : PyDict) (cat : String) : List JVal :=
  asArr (dgetD (asObj (mProj m "important_entities")) cat .null)

/-- Values are strings. -/
def isStrList : List JVal → Bool
  | [] => true
  | .str _ :: rest => isStrList rest
  | _ => false

def wfOptObj : Option JVal → Bool
  | none => true
  | some (.obj _) => true
  | some _ => false

def wfOptStr : Option JVal → Bool
  | none => true
  | some (.str _) => true
  | some v => ¬ truthy v

def wfOptStrArr : Option JVal → Bool
  | none => true
  | some (.arr xs) => isStrList xs
  | some v => ¬ truthy v

def wfOptArr : Option JVal → Bool
  | none => true
  | some (.arr _) => true
  | some v => ¬ truthy v

/-- Well-formedness of a chunk result per the canonical schema: the
fields the merge manipulates have the types the source's operations
assume (`.get` needs dicts, `.extend` needs lists, `+=` needs strings,
`dict.fromkeys`/`set` need hashable — here string — elements).  Falsy
values of other types are allowed where a truthiness guard skips them.
Error markers are exempt: the merge never touches their fields. -/
def wfChunk (cr : PyDict) : Bool :=
  hasError cr ∨
  (wfOptObj (dget cr "main_content") ∧
   wfOptStr (dget (mcOf cr) "summary") ∧
   wfOptStrArr (dget (mcOf cr) "key_points") ∧
   arrayFields.all (fun field => wfOptArr (dget cr field)) ∧
   wfOptObj (dget cr "important_entities") ∧
   entityCats.all (fun cat => wfOptStrArr (dget (entOf cr) cat)) ∧
   wfOptStr (dget cr "full_text_content"))

/-! ## Field-wise closed forms of the merge -/

theorem kp_closed (rs : List PyDict) (pdf_path : String) :
    asArr (mcProj (merge_chunk_results rs pdf_path) "key_points")
      = pyFromKeys (((okFilter rs).map kpOf).flatten) := by
  have hfold : List.foldl updKp [] (okFilter rs) = ((okFilter rs).map kpOf).flatten := by
    simpa using foldl_updlike updKp kpOf updKp_eq (okFilter rs) []
  rw [merge_chunk_results_closed]
  exact congrArg pyFromKeys hfold

theorem entProj_closed (rs : List PyDict) (pdf_path : String) (cat : String)
    (hcat : cat ∈ entityCats) :
    entProj (merge_chunk_results rs pdf_path) cat
      = pySetList (((okFilter rs).map (entListOf cat)).flatten) := by
  have hfold : ∀ c : String, List.foldl (updEnt c) [] (okFilter rs)
      = ((okFilter rs).map (entListOf c)).flatten := fun c => by
    simpa using foldl_updlike (updEnt c) (entListOf c) (updEnt_eq c) (okFilter rs) []
  rw [merge_chunk_results_closed]
  fin_cases hcat <;> exact congrArg pySetList (hfold _)

theorem arrField_closed (rs : List PyDict) (pdf_path : String) (field : String)
    (hf : field ∈ arrayFields) :
    asArr (mProj (merge_chunk_results rs pdf_path) field)
      = ((okFilter rs).map (arrFieldOf field)).flatten := by
  have hfold : ∀ f : String, List.foldl (updArr f) [] (okFilter rs)
      = ((okFilter rs).map (arrFieldOf f)).flatten := fun f => by
    simpa using foldl_updlike (updArr f) (arrFieldOf f) (updArr_eq f) (okFilter rs) []
  rw [merge_chunk_results_closed]
  fin_cases hf <;> exact hfold _

/-- Claim C7: merged `key_points` are the chunk-order concatenation of
the non-error chunks' lists, de-duplicated keeping first occurrences
(an order-preserving duplicate-free sublist with the same members);
each entity category holds the members of the concatenation with
duplicates removed and no order guarantee; the five other array fields
are plain chunk-order concatenations with no de-duplication. -/
theorem c7_merge_dedup_semantics (rs : List PyDict) (pdf_path : String)
    (hwf : ∀ cr ∈ rs, wfChunk cr = true) :
    (asArr (mcProj (merge_chunk_results rs pdf_path) "key_points")
        = pyFromKeys (((okFilter rs).map kpOf).flatten)
      ∧ (asArr (mcProj (merge_chunk_results rs pdf_path) "key_points")).Nodup
      ∧ (asArr (mcProj (merge_chunk_results rs pdf_path) "key_points")).Sublist
          (((okFilter rs).map kpOf).flatten)
      ∧ ∀ x : JVal, x ∈ asArr (mcProj (merge_chunk_results rs pdf_path) "key_points")
          ↔ x ∈ ((okFilter rs).map kpOf).flatten)
    ∧ (∀ cat ∈ entityCats,
        (∀ x : JVal, x ∈ entProj (merge_chunk_results rs pdf_path) cat
            ↔ x ∈ ((okFilter rs).map (entListOf cat)).flatten)
          ∧ (entProj (merge_chunk_results rs pdf_path) cat).Nodup)
    ∧ (∀ field ∈ arrayFields,
        asArr (mProj (merge_chunk_results rs pdf_path) field)
          = ((okFilter rs).map (arrFieldOf field)).flatten) := by
  have hkp := kp_closed rs pdf_path
  refine ⟨⟨hkp, ?_, ?_, ?_⟩, ?_, fun field hf => arrField_closed rs pdf_path field hf⟩
  · rw [hkp]
    exact nodup_pyFromKeys _
  · rw [hkp]
    exact sublist_pyFromKeys _
  · intro x
    rw [hkp]
    exact mem_pyFromKeys _ x
  · intro cat hcat
    have hc := entProj_closed rs pdf_path cat hcat
    refine ⟨?_, ?_⟩
    · intro x
      rw [hc]
      exact mem_pyFromKeys _ x
    · rw [hc]
      exact nodup_pyFromKeys _

/-- A successful chunk result used by the witnesses (carrying the
per-chunk `processing_method` and `processed_timestamp` tags that
`parse_json_response` attaches). -/
def exChunkA : PyDict :=
  [("main_content", .obj [("purpose", .str "P1"), ("summary", .str "S1"),
    ("key_points", .arr [.str "a", .str "b"])]),
   ("important_entities", .obj [("people", .arr [.str "X", .str "Y"])]),
   ("detailed_sections", .arr [.str "d1"]),
   ("full_text_content", .str "T1"),
   ("processing_method", .str "chunk_1"),
   ("processed_timestamp", .str "TS")]

/-- A second successful chunk result overlapping the first. -/
def exChunkB : PyDict :=
  [("main_content", .obj [("summary", .str "S2"),
    ("key_points", .arr [.str "b", .str "c"])]),
   ("important_entities", .obj [("people", .arr [.str "Y", .str "Z"])]),
   ("detailed_sections", .arr [.str "d2"]),
   ("full_text_content", .str "T2")]

/-- An error marker as the orchestrator records it. -/
def exChunkErr : PyDict := [("error", .str "boom"), ("chunk", .num 2)]

/-- Witness for C7: merging overlapping chunk lists around an error
marker yields first-seen-order de-duplicated key points. -/
theorem c7_merge_dedup_semantics_witness :
    asArr (mcProj (merge_chunk_results [exChunkA, exChunkErr, exChunkB] "f.pdf") "key_points")
      = [.str "a", .str "b", .str "c"] := by
  have h := c7_merge_dedup_semantics [exChunkA, exChunkErr, exChunkB] "f.pdf" (by decide)
  rw [h.1.1]
  decide

/-- The exact key set of every merged document. -/
def canonicalKeys : List String :=
  ["document_info", "main_content", "detailed_sections", "rules_and_provisions",
   "penalties_and_consequences", "important_entities", "action_items", "definitions",
   "full_text_content", "processing_method", "total_chunks"]

theorem dget_eq_none_of_not_mem_dkeys :
    ∀ (d : PyDict) (k : String), k ∉ dkeys d → dget d k = none
  | [], _, _ => rfl
  | (k', v) :: rest, k, h => by
    have h1 : k' ≠ k := fun he => h (by simp [dkeys, he])
    have h2 : k ∉ dkeys rest := fun hm => h (by simp [dkeys] at hm ⊢; exact Or.inr hm)
    rw [dget, List.find?_cons_of_neg _ (by simp [h1])]
    exact dget_eq_none_of_not_mem_dkeys rest k h2

/-- Claim C10: the merged document has exactly the canonical key set
(top level, `main_content`, `important_entities`), and every
non-canonical field of a chunk result (for example
`processed_timestamp` or the per-chunk `processing_method` tag) is
absent from the merged document. -/
theorem c10_merged_canonical_keys (rs : List PyDict) (pdf_path : String)
    (hwf : ∀ cr ∈ rs, wfChunk cr = true) :
    dkeys (merge_chunk_results rs pdf_path) = canonicalKeys
    ∧ dkeys (asObj (mProj (merge_chunk_results rs pdf_path) "main_content"))
        = ["purpose", "summary", "key_points"]
    ∧ dkeys (asObj (mProj (merge_chunk_results rs pdf_path) "important_entities"))
        = entityCats
    ∧ ∀ k : String, k ∉ canonicalKeys → dget (merge_chunk_results rs pdf_path) k = none := by
  rw [merge_chunk_results_closed]
  refine ⟨rfl, rfl, rfl, ?_⟩
  intro k hk
  apply dget_eq_none_of_not_mem_dkeys
  intro hm
  exact hk hm

/-- Witness for C10: a merge of results carrying extra keys (including
the empty merge) has exactly the canonical keys, and the extra
`processed_timestamp` field is dropped. -/
theorem c10_merged_canonical_keys_witness :
    dkeys (merge_chunk_results [exChunkA] "f.pdf") = canonicalKeys
    ∧ dget (merge_chunk_results [exChunkA] "f.pdf") "processed_timestamp" = none
    ∧ dkeys (merge_chunk_results [] "f.pdf") = canonicalKeys := by
  have h1 := c10_merged_canonical_keys [exChunkA] "f.pdf" (by decide)
  have h2 := c10_merged_canonical_keys [] "f.pdf" (by simp)
  exact ⟨h1.1, h1.2.2.2 "processed_timestamp" (by decide), h2.1⟩

/-! ## Merging a single chunk result (claim C3) -/

/-- A canonical successful chunk result (exactly the canonical keys,
no processing tags), used for the C3 counterexample. -/
def exElem : PyDict :=
  [("document_info", .obj [("title", .str "T")]),
   ("main_content", .obj [("purpose", .str "P"), ("summary", .str "S"),
     ("key_points", .arr [.str "k"])]),
   ("detailed_sections", .arr []),
   ("rules_and_provisions", .arr []),
   ("penalties_and_consequences", .arr []),
   ("important_entities", .obj
     [("people", .arr []), ("organizations", .arr []), ("locations", .arr []),
      ("amounts", .arr []), ("dates", .arr []), ("references", .arr [])]),
   ("action_items", .arr []),
   ("definitions", .arr []),
   ("full_text_content", .str "F")]

/-- Claim C3 counterexample: merging the single successful canonical
element `exElem` does not return `exElem` with only
`processing_method`/`total_chunks` added — the merged summary gains a
leading space and `full_text_content` a leading blank line. -/
theorem c3_counterexample :
    hasError exElem = false ∧
    merge_chunk_results [exElem] "f.pdf"
      ≠ dset (dset exElem "processing_method" (.str "multi_chunk")) "total_chunks" (.num 1) ∧
    mcProj (merge_chunk_results [exElem] "f.pdf") "summary" = .str " S" ∧
    mProj (merge_chunk_results [exElem] "f.pdf") "full_text_content" = .str "\n\nF" := by
  refine ⟨rfl, by decide, rfl, rfl⟩

/-- A canonical well-typed chunk result with given field contents. -/
def mkChunk (di : PyDict) (p s : String) (kp : List String)
    (ds rp pc : List JVal) (pe og lo am da re : List String)
    (ai df : List JVal) (ftc : String) : PyDict :=
  [("document_info", .obj di),
   ("main_content", .obj [("purpose", .str p), ("summary", .str s),
     ("key_points", .arr (kp.map JVal.str))]),
   ("detailed_sections", .arr ds),
   ("rules_and_provisions", .arr rp),
   ("penalties_and_consequences", .arr pc),
   ("important_entities", .obj
     [("people", .arr (pe.map JVal.str)), ("organizations", .arr (og.map JVal.str)),
      ("locations", .arr (lo.map JVal.str)), ("amounts", .arr (am.map JVal.str)),
      ("dates", .arr (da.map JVal.str)), ("references", .arr (re.map JVal.str))]),
   ("action_items", .arr ai),
   ("definitions", .arr df),
   ("full_text_content", .str ftc)]

theorem updDI_of_dget (cr : PyDict) (X : PyDict)
    (h : dget cr "document_info" = some (.obj X)) : updDI (.obj []) cr = .obj X := by
  unfold updDI dgetD
  rw [h]
  by_cases hX : X = []
  · subst hX
    simp [truthyO, truthy]
  · rw [if_pos ⟨by decide, by simp [truthyO, truthy, hX]⟩]
    rfl

theorem updP_of_dget (cr : PyDict) (q : String)
    (h : dget (mcOf cr) "purpose" = some (.str q)) : updP (.str "") cr = .str q := by
  unfold updP dgetD
  rw [h]
  by_cases hq : q = ""
  · subst hq
    simp [truthyO, truthy]
  · rw [if_pos ⟨by simp [truthyO, truthy, hq], by decide⟩]
    rfl

theorem updS_of_dget (cr : PyDict) (x : String) (hx : x ≠ "")
    (h : dget (mcOf cr) "summary" = some (.str x)) : updS "" cr = " " ++ x := by
  unfold updS dgetD
  rw [h, if_pos (by simp [truthyO, truthy, hx])]
  rfl

theorem updKp_of_dget (cr : PyDict) (X : List JVal)
    (h : dget (mcOf cr) "key_points" = some (.arr X)) : updKp [] cr = X := by
  unfold updKp dgetD
  rw [h]
  by_cases hX : X = []
  · subst hX
    simp [truthyO, truthy]
  · rw [if_pos (by simp [truthyO, truthy, hX])]
    rfl

theorem updArr_of_dget (field : String) (cr : PyDict) (X : List JVal)
    (h : dget cr field = some (.arr X)) : updArr field [] cr = X := by
  unfold updArr dgetD
  rw [h]
  by_cases hX : X = []
  · subst hX
    simp [truthyO, truthy]
  · rw [if_pos (by simp [truthyO, truthy, hX])]
    rfl

theorem updEnt_of_dget (cat : String) (cr : PyDict) (X : List JVal)
    (h : dget (entOf cr) cat = some (.arr X)) : updEnt cat [] cr = X := by
  unfold updEnt dgetD
  rw [h]
  by_cases hX : X = []
  · subst hX
    simp [truthyO, truthy]
  · rw [if_pos (by simp [truthyO, truthy, hX])]
    rfl

theorem updFtc_of_dget (cr : PyDict) (x : String) (hx : x ≠ "")
    (h : dget cr "full_text_content" = some (.str x)) : updFtc "" cr = "\n\n" ++ x := by
  unfold updFtc dgetD
  rw [h, if_pos (by simp [truthyO, truthy, hx])]
  rfl

theorem jvalStr_injective : Function.Injective JVal.str := by
  intro a b h
  injection h

/-- Claim C3 (amended): merging the single-element list of a canonical
well-typed chunk result returns the document that agrees with the
element on every canonical field except that `processing_method =
"multi_chunk"` and `total_chunks = 1` are set, the summary gains one
leading space, `full_text_content` gains one leading blank line, each
entity category is replaced by a permutation of itself (CPython's set
order is unspecified), and nothing outside the canonical key set is
kept. -/
theorem c3_amended_single_merge (di : PyDict) (p s : String) (kp : List String)
    (ds rp pc : List JVal) (pe og lo am da re : List String) (ai df : List JVal)
    (ftc pdf_path : String) (M : PyDict)
    (hM : M = merge_chunk_results [mkChunk di p s kp ds rp pc pe og lo am da re ai df ftc]
      pdf_path)
    (hs : s ≠ "") (hftc : ftc ≠ "") (hkp : kp.Nodup) (hpe : pe.Nodup) (hog : og.Nodup)
    (hlo : lo.Nodup) (ham : am.Nodup) (hda : da.Nodup) (hre : re.Nodup) :
    mProj M "document_info" = .obj di
    ∧ mcProj M "purpose" = .str p
    ∧ mcProj M "summary" = .str (" " ++ s)
    ∧ mcProj M "key_points" = .arr (kp.map JVal.str)
    ∧ mProj M "detailed_sections" = .arr ds
    ∧ mProj M "rules_and_provisions" = .arr rp
    ∧ mProj M "penalties_and_consequences" = .arr pc
    ∧ ((entProj M "people").Perm (pe.map JVal.str) ∧ (entProj M "people").Nodup)
    ∧ ((entProj M "organizations").Perm (og.map JVal.str) ∧ (entProj M "organizations").Nodup)
    ∧ ((entProj M "locations").Perm (lo.map JVal.str) ∧ (entProj M "locations").Nodup)
    ∧ ((entProj M "amounts").Perm (am.map JVal.str) ∧ (entProj M "amounts").Nodup)
    ∧ ((entProj M "dates").Perm (da.map JVal.str) ∧ (entProj M "dates").Nodup)
    ∧ ((entProj M "references").Perm (re.map JVal.str) ∧ (entProj M "references").Nodup)
    ∧ mProj M "action_items" = .arr ai
    ∧ mProj M "definitions" = .arr df
    ∧ mProj M "full_text_content" = .str ("\n\n" ++ ftc)
    ∧ mProj M "processing_method" = .str "multi_chunk"
    ∧ mProj M "total_chunks" = .num 1
    ∧ dkeys M = canonicalKeys := by
  subst hM
  set E := mkChunk di p s kp ds rp pc pe og lo am da re ai df ftc with hE
  have herr : hasError E = false := rfl
  have hok : okFilter [E] = [E] := by simp [okFilter, herr]
  rw [merge_chunk_results_closed, hok]
  simp only [List.foldl_cons, List.foldl_nil]
  have hent : ∀ (cat : String) (X : List String), X.Nodup →
      dget (entOf E) cat = some (.arr (X.map JVal.str)) →
      (pySetList (updEnt cat [] E)).Perm (X.map JVal.str)
        ∧ (pySetList (updEnt cat [] E)).Nodup := by
    intro cat X hnd hdg
    have h1 : pySetList (updEnt cat [] E) = X.map JVal.str := by
      rw [updEnt_of_dget cat E _ hdg]
      exact pyFromKeys_eq_of_nodup _ (hnd.map jvalStr_injective)
    rw [h1]
    exact ⟨List.Perm.refl _, hnd.map jvalStr_injective⟩
  refine ⟨updDI_of_dget E di rfl, updP_of_dget E p rfl, ?_, ?_,
    congrArg JVal.arr (updArr_of_dget "detailed_sections" E ds rfl),
    congrArg JVal.arr (updArr_of_dget "rules_and_provisions" E rp rfl),
    congrArg JVal.arr (updArr_of_dget "penalties_and_consequences" E pc rfl),
    hent "people" pe hpe rfl, hent "organizations" og hog rfl,
    hent "locations" lo hlo rfl, hent "amounts" am ham rfl,
    hent "dates" da hda rfl, hent "references" re hre rfl,
    congrArg JVal.arr (updArr_of_dget "action_items" E ai rfl),
    congrArg JVal.arr (updArr_of_dget "definitions" E df rfl),
    ?_, rfl, rfl, rfl⟩
  · show JVal.str (updS "" E) = .str (" " ++ s)
    rw [updS_of_dget E s hs rfl]
  · show JVal.arr (pyFromKeys (updKp [] E)) = .arr (kp.map JVal.str)
    rw [updKp_of_dget E _ rfl, pyFromKeys_eq_of_nodup _ (hkp.map jvalStr_injective)]
  · show JVal.str (updFtc "" E) = .str ("\n\n" ++ ftc)
    rw [updFtc_of_dget E ftc hftc rfl]

/-- Witness for the amended C3 at a concrete canonical element. -/
theorem c3_amended_single_merge_witness :
    mcProj (merge_chunk_results
        [mkChunk [("title", .str "T")] "P" "S" ["k"] [] [] [] ["X"] [] [] [] [] [] [] []
          "F"] "f.pdf") "summary" = .str " S"
    ∧ mProj (merge_chunk_results
        [mkChunk [("title", .str "T")] "P" "S" ["k"] [] [] [] ["X"] [] [] [] [] [] [] []
          "F"] "f.pdf") "full_text_content" = .str "\n\nF"
    ∧ dkeys (merge_chunk_results
        [mkChunk [("title", .str "T")] "P" "S" ["k"] [] [] [] ["X"] [] [] [] [] [] [] []
          "F"] "f.pdf") = canonicalKeys := by
  have h := c3_amended_single_merge [("title", .str "T")] "P" "S" ["k"] [] [] []
    ["X"] [] [] [] [] [] [] [] "F" "f.pdf" _ rfl (by decide) (by decide) (by decide)
    (by decide) (by decide) (by decide) (by decide) (by decide) (by decide)
  exact ⟨h.2.2.1, h.2.2.2.2.2.2.2.2.2.2.2.2.2.2.2.1, h.2.2.2.2.2.2.2.2.2.2.2.2.2.2.2.2.2.2⟩

/-! ## The chunk orchestrator
(`GeminiPDFProcessor.process_multi_chunk_document`, aiscript.py lines
274-311).  The external `self.model.generate_content` call is an oracle
`gen` from the prompt text to either the raw response (`ok`) or the
exception message (`error`); `time.sleep` pacing has no observable
effect on the result and is not modelled. -/

/-- The augmented per-chunk prompt (aiscript.py lines 283-292): the
source's triple-quoted f-string carrying the 1-based position and the
total count, its indentation reproduced. -/
def chunkPrompt (i total : Nat) (processing_prompt chunk : String) : String :=
  "\n            This is part " ++ toString i ++ " of " ++ toString total
    ++ " of a larger document. \n            Extract all content from this section following the same JSON structure.\n            Mark this as \"chunk_"
    ++ toString i ++ "_of_" ++ toString total
    ++ "\" in the response.\n            \n            " ++ processing_prompt
    ++ "\n            \n            Document section content:\n            " ++ chunk
    ++ "\n            "

/-- The error marker appended on a failed chunk (aiscript.py line 308):
`{"error": str(e), "chunk": i}`. -/
def errorMarker (e : String) (i : Nat) : PyDict :=
  [("error", .str e), ("chunk", .num i)]

/-- The result the loop body appends for the 0-based position `p.1`
with chunk text `p.2` (aiscript.py lines 294-308). -/
def chunkOutcome (gen : String → Except String (List Char)) (n : Nat)
    (processing_prompt timestamp : String) (p : Nat × String) : PyDict :=
  match gen (chunkPrompt (p.1 + 1) n processing_prompt p.2) with
  | .ok t => parse_json_response t ("chunk_" ++ toString (p.1 + 1)) timestamp
  | .error e => errorMarker e (p.1 + 1)

/-- The `for i, chunk in enumerate(chunks, 1)` loop (aiscript.py lines
278-308), appending one result per chunk. -/
def processChunks (chunks : List String) (gen : String → Except String (List Char))
    (processing_prompt timestamp : String) : List PyDict :=
  (chunks.enum).foldl
    (fun acc p => acc ++ [chunkOutcome gen chunks.length processing_prompt timestamp p]) []

/-- `GeminiPDFProcessor.process_multi_chunk_document` (aiscript.py
lines 274-311). -/
def process_multi_chunk_document (chunks : List String)
    (gen : String → Except String (List Char))
    (processing_prompt timestamp pdf_path : String) : PyDict :=
  merge_chunk_results (processChunks chunks gen processing_prompt timestamp) pdf_path

theorem foldl_append_singleton {α β : Type} (f : α → β) :
    ∀ (l : List α) (acc : List β), l.foldl (fun a x => a ++ [f x]) acc = acc ++ l.map f
  | [], acc => by simp
  | x :: l, acc => by
    rw [List.foldl_cons, foldl_append_singleton f l]
    simp

theorem processChunks_eq_map (chunks : List String)
    (gen : String → Except String (List Char)) (processing_prompt timestamp : String) :
    processChunks chunks gen processing_prompt timestamp
      = chunks.enum.map (chunkOutcome gen chunks.length processing_prompt timestamp) := by
  unfold processChunks
  rw [foldl_append_singleton]
  simp

/-- Claim C8: every chunk position yields exactly one recorded result —
the parse of the generate output on success, the error marker
`{"error": e, "chunk": i}` on failure — so one chunk's failure never
drops later chunks; the merge step is the identity on any error-marked
entry; and the merged document's `total_chunks` equals the original
number of chunks from the split. -/
theorem c8_chunk_errors_isolated (chunks : List String)
    (gen : String → Except String (List Char))
    (processing_prompt timestamp pdf_path : String) :
    (processChunks chunks gen processing_prompt timestamp).length = chunks.length
    ∧ (∀ i : Nat, (processChunks chunks gen processing_prompt timestamp).get? i
        = (chunks.get? i).map (fun ch =>
            chunkOutcome gen chunks.length processing_prompt timestamp (i, ch)))
    ∧ (∀ i ch e, chunks.get? i = some ch →
        gen (chunkPrompt (i + 1) chunks.length processing_prompt ch) = .error e →
        (processChunks chunks gen processing_prompt timestamp).get? i
          = some (errorMarker e (i + 1)))
    ∧ (∀ (m cr : PyDict), hasError cr = true → mergeStep m cr = m)
    ∧ (∀ e i, hasError (errorMarker e i) = true)
    ∧ dget (process_multi_chunk_document chunks gen processing_prompt timestamp pdf_path)
        "total_chunks"
      = some (.num ((chunks.length : Nat) : Int)) := by
  have hmap := processChunks_eq_map chunks gen processing_prompt timestamp
  have hlen : (processChunks chunks gen processing_prompt timestamp).length
      = chunks.length := by
    rw [hmap]
    simp [List.enum_length]
  have hpos : ∀ i : Nat, (processChunks chunks gen processing_prompt timestamp).get? i
      = (chunks.get? i).map (fun ch =>
          chunkOutcome gen chunks.length processing_prompt timestamp (i, ch)) := by
    intro i
    rw [hmap, List.get?_map, List.get?_enum]
    cases chunks.get? i <;> rfl
  refine ⟨hlen, hpos, ?_, fun m cr h => mergeStep_err m cr h, fun e i => rfl, ?_⟩
  · intro i ch e hch hgen
    rw [hpos i, hch]
    simp [chunkOutcome, hgen]
  · show dget (merge_chunk_results (processChunks chunks gen processing_prompt timestamp)
      pdf_path) "total_chunks" = some (.num ((chunks.length : Nat) : Int))
    rw [merge_chunk_results_closed, show dget (mkMerged
      ((okFilter (processChunks chunks gen processing_prompt timestamp)).foldl updDI (.obj []))
      ((okFilter (processChunks chunks gen processing_prompt timestamp)).foldl updP (.str ""))
      ((okFilter (processChunks chunks gen processing_prompt timestamp)).foldl updS "")
      (pyFromKeys ((okFilter (processChunks chunks gen processing_prompt timestamp)).foldl updKp []))
      ((okFilter (processChunks chunks gen processing_prompt timestamp)).foldl (updArr "detailed_sections") [])
      ((okFilter (processChunks chunks gen processing_prompt timestamp)).foldl (updArr "rules_and_provisions") [])
      ((okFilter (processChunks chunks gen processing_prompt timestamp)).foldl (updArr "penalties_and_consequences") [])
      (pySetList ((okFilter (processChunks chunks gen processing_prompt timestamp)).foldl (updEnt "people") []))
      (pySetList ((okFilter (processChunks chunks gen processing_prompt timestamp)).foldl (updEnt "organizations") []))
      (pySetList ((okFilter (processChunks chunks gen processing_prompt timestamp)).foldl (updEnt "locations") []))
      (pySetList ((okFilter (processChunks chunks gen processing_prompt timestamp)).foldl (updEnt "amounts") []))
      (pySetList ((okFilter (processChunks chunks gen processing_prompt timestamp)).foldl (updEnt "dates") []))
      (pySetList ((okFilter (processChunks chunks gen processing_prompt timestamp)).foldl (updEnt "references") []))
      ((okFilter (processChunks chunks gen processing_prompt timestamp)).foldl (updArr "action_items") [])
      ((okFilter (processChunks chunks gen processing_prompt timestamp)).foldl (updArr "definitions") [])
      ((okFilter (processChunks chunks gen processing_prompt timestamp)).foldl updFtc "")
      (.num ((processChunks chunks gen processing_prompt timestamp).length : Int)))
      "total_chunks"
      = some (.num ((processChunks chunks gen processing_prompt timestamp).length : Int))
      from rfl, hlen]

/-- A concrete generate oracle failing exactly on the second chunk's
prompt. -/
def genEx : String → Except String (List Char) := fun p =>
  if p = chunkPrompt 2 2 "PP" "c2" then .error "boom" else .ok ("\x7b\x7d".data)

/-- Witness for C8: with two chunks and a generate call failing on the
second, both positions are recorded (the second as its error marker),
the merge step ignores the marker, and `total_chunks` is 2. -/
theorem c8_chunk_errors_isolated_witness :
    (processChunks ["c1", "c2"] genEx "PP" "TS").length = 2
    ∧ (processChunks ["c1", "c2"] genEx "PP" "TS").get? 1 = some (errorMarker "boom" 2)
    ∧ mergeStep (mergedSkeleton 2) (errorMarker "boom" 2) = mergedSkeleton 2
    ∧ dget (process_multi_chunk_document ["c1", "c2"] genEx "PP" "TS" "f.pdf") "total_chunks"
        = some (.num 2) := by
  have h := c8_chunk_errors_isolated ["c1", "c2"] genEx "PP" "TS" "f.pdf"
  refine ⟨h.1, ?_, h.2.2.2.1 (mergedSkeleton 2) (errorMarker "boom" 2)
    (h.2.2.2.2.1 "boom" 2), h.2.2.2.2.2⟩
  exact h.2.2.1 1 "c2" "boom" rfl (by simp [genEx])
